import Mathlib

/-!
# SeaDrop core — formal model and verification

A shallow embedding of the SeaDrop library core
(`src/libseadrop/src/{protocol,security,device,state_machine,distance}.cpp`)
in Lean 4, together with theorems checking the natural-language
specification against the code.

Conventions of the embedding:
* C++ byte buffers (`Bytes = std::vector<uint8_t>`) become `List Nat`;
  byte-validity (`< 256`) is carried as an explicit hypothesis where it
  matters.
* Unsigned machine arithmetic is `Nat` with explicit `% 2^w` / `/ 2^k`
  where the source shifts and masks (`x >> k & 0xFF` is `x / 2^k % 256`;
  `|` of byte-disjoint values is `+`).
* C++ `int` becomes `Int`; the C++ `/` on `int` (truncation towards zero)
  is `Int.div`.
* Fallible code (`Result<T>`) becomes `Except Error`.
* Stateful classes become explicit state records; member functions become
  functions `state → ... → result × state`; callbacks become returned
  `Option` events.
-/

namespace Seadrop

/-- Error codes, from `include/seadrop/error.h` (`enum class ErrorCode`). -/
inductive ErrorCode where
  | Success
  | Unknown
  | InvalidArgument
  | InvalidState
  | NotInitialized
  | AlreadyInitialized
  | NotSupported
  | Timeout
  | Cancelled
  | DiscoveryFailed
  | DiscoveryNotAvailable
  | BluetoothOff
  | BluetoothNotSupported
  | BleAdvertiseFailed
  | BleScanFailed
  | ConnectionFailed
  | ConnectionLost
  | ConnectionRefused
  | ConnectionTimeout
  | WifiDirectNotAvailable
  | WifiDirectFailed
  | GroupFormationFailed
  | PeerNotFound
  | AlreadyConnected
  | NotConnected
  | TransferFailed
  | TransferCancelled
  | TransferRejected
  | FileNotFound
  | FileReadError
  | FileWriteError
  | DiskFull
  | FileTooLarge
  | InvalidFileType
  | ChecksumMismatch
  | SecurityError
  | EncryptionFailed
  | DecryptionFailed
  | AuthenticationFailed
  | KeyExchangeFailed
  | InvalidSignature
  | TrustDenied
  | DeviceNotTrusted
  | PairingFailed
  | PairingRejected
  | PlatformError
  | PermissionDenied
  | ServiceUnavailable
  | HardwareNotAvailable
  | DriverError
  | DatabaseError
  | DatabaseCorrupted
  | DatabaseLocked
  | RecordNotFound
deriving DecidableEq, Repr

/-- `struct Error` from `error.h`: an error code plus a message
(`details` and `location` default to empty and are never set by the
modelled code paths). -/
structure Error where
  code : ErrorCode
  message : String
deriving DecidableEq, Repr

/-- `Result<T>` from `error.h`: a value or an `Error`. -/
abbrev SdResult (α : Type) := Except Error α

instance {ε α : Type} [DecidableEq ε] [DecidableEq α] : DecidableEq (Except ε α) :=
  fun x y =>
    match x, y with
    | .ok a, .ok b =>
        if h : a = b then isTrue (by rw [h])
        else isFalse (fun hc => h (Except.ok.inj hc))
    | .error a, .error b =>
        if h : a = b then isTrue (by rw [h])
        else isFalse (fun hc => h (Except.error.inj hc))
    | .ok _, .error _ => isFalse (fun hc => Except.noConfusion hc)
    | .error _, .ok _ => isFalse (fun hc => Except.noConfusion hc)

/-- `Bytes = std::vector<uint8_t>`: a list of byte values. -/
abbrev Bytes := List Nat

/-- All elements of a buffer are byte-sized. -/
def ByteValid (b : Bytes) : Prop := ∀ x ∈ b, x < 256

instance (b : Bytes) : Decidable (ByteValid b) := by
  unfold ByteValid; infer_instance

/-! ## Codec primitives (`protocol.cpp`, anonymous namespace)

Little-endian writers push `(val >> 8*i) & 0xFF`, i.e. `val / 2^(8*i) % 256`.
Little-endian readers fold `d[i] << 8*i`; on byte-valid data bitwise-or of
byte-disjoint values is addition, so the readers use `+` and `*`. -/

/-- `write_u16`: little-endian `uint16`. -/
def write_u16 (val : Nat) : Bytes :=
  [val % 256, val / 256 % 256]

/-- `write_u32`: little-endian `uint32`. -/
def write_u32 (val : Nat) : Bytes :=
  [val % 256, val / 2 ^ 8 % 256, val / 2 ^ 16 % 256, val / 2 ^ 24 % 256]

/-- `write_u64`: little-endian `uint64`. -/
def write_u64 (val : Nat) : Bytes :=
  (List.range 8).map fun i => val / 2 ^ (8 * i) % 256

/-- `read_u16(d + off)`: little-endian `uint16` at an offset. -/
def read_u16At (d : Bytes) (off : Nat) : Nat :=
  d.getD off 0 + 256 * d.getD (off + 1) 0

/-- `read_u32(d + off)`: little-endian `uint32` at an offset. -/
def read_u32At (d : Bytes) (off : Nat) : Nat :=
  d.getD off 0 + 2 ^ 8 * d.getD (off + 1) 0 + 2 ^ 16 * d.getD (off + 2) 0 +
    2 ^ 24 * d.getD (off + 3) 0

theorem write_u32_length (v : Nat) : (write_u32 v).length = 4 := rfl

theorem write_u32_byteValid (v : Nat) : ByteValid (write_u32 v) := by
  intro x hx
  simp only [write_u32, List.mem_cons, List.not_mem_nil, or_false] at hx
  rcases hx with h | h | h | h <;> subst h <;> exact Nat.mod_lt _ (by norm_num)

/-- Reading back four little-endian bytes recovers the value modulo `2^32`. -/
theorem read_write_u32 (v : Nat) (rest : Bytes) :
    read_u32At (write_u32 v ++ rest) 0 = v % 2 ^ 32 := by
  simp only [read_u32At, write_u32, List.cons_append, List.nil_append]
  simp only [List.getD_cons_zero, List.getD_cons_succ]
  omega

theorem read_write_u32_of_lt (v : Nat) (rest : Bytes) (h : v < 2 ^ 32) :
    read_u32At (write_u32 v ++ rest) 0 = v := by
  rw [read_write_u32, Nat.mod_eq_of_lt h]

/-! ## Packet header (`protocol.h`, `protocol.cpp`) -/

/-- `PROTOCOL_MAGIC`: "SEAD" little-endian. -/
def PROTOCOL_MAGIC : Nat := 0x44414553

/-- `PROTOCOL_VERSION`. -/
def PROTOCOL_VERSION : Nat := 1

/-- `MAX_PAYLOAD_SIZE`: 16 MiB. -/
def MAX_PAYLOAD_SIZE : Nat := 16 * 1024 * 1024

/-- `PACKET_HEADER_SIZE`. -/
def PACKET_HEADER_SIZE : Nat := 12

/-- `struct PacketHeader` (12-byte wire header). Fields are `Nat`; the
C++ fields are `uint32/uint8/uint8/uint16/uint32`, captured by
`PacketHeader.Bounds`. -/
structure PacketHeader where
  magic : Nat
  version : Nat
  type : Nat
  flags : Nat
  payload_size : Nat
deriving DecidableEq, Repr

/-- The machine-integer ranges of the C++ field types. -/
def PacketHeader.Bounds (h : PacketHeader) : Prop :=
  h.magic < 2 ^ 32 ∧ h.version < 2 ^ 8 ∧ h.type < 2 ^ 8 ∧
    h.flags < 2 ^ 16 ∧ h.payload_size < 2 ^ 32

instance (h : PacketHeader) : Decidable h.Bounds := by
  unfold PacketHeader.Bounds; infer_instance

/-- `PacketHeader::is_valid`. -/
def PacketHeader.is_valid (h : PacketHeader) : Bool :=
  h.magic == PROTOCOL_MAGIC && h.version == PROTOCOL_VERSION &&
    decide (h.payload_size ≤ MAX_PAYLOAD_SIZE)

/-- `serialize_header`. -/
def serialize_header (header : PacketHeader) : Bytes :=
  write_u32 header.magic ++ [header.version, header.type] ++
    write_u16 header.flags ++ write_u32 header.payload_size

/-- The header record `deserialize_header` builds from the five raw reads
before validating. -/
def headerOf (buf : Bytes) : PacketHeader :=
  { magic := read_u32At buf 0
    version := buf.getD 4 0
    type := buf.getD 5 0
    flags := read_u16At buf 6
    payload_size := read_u32At buf 8 }

/-- `deserialize_header`, including its error branches in source order. -/
def deserialize_header (buf : Bytes) : SdResult PacketHeader :=
  if buf.length < PACKET_HEADER_SIZE then
    .error ⟨.InvalidArgument, "Header too short"⟩
  else if (headerOf buf).is_valid then .ok (headerOf buf)
  else if (headerOf buf).magic ≠ PROTOCOL_MAGIC then
    .error ⟨.InvalidArgument, "Invalid magic number"⟩
  else if (headerOf buf).version ≠ PROTOCOL_VERSION then
    .error ⟨.NotSupported, "Protocol version mismatch"⟩
  else if (headerOf buf).payload_size > MAX_PAYLOAD_SIZE then
    .error ⟨.InvalidArgument, "Payload too large"⟩
  else .ok (headerOf buf)

theorem serialize_header_length (h : PacketHeader) :
    (serialize_header h).length = PACKET_HEADER_SIZE := rfl

/-- The raw field reads of `deserialize_header` recover the serialized
fields, for in-range fields, whatever trails the header bytes. -/
theorem header_fields_roundtrip (h : PacketHeader) (hb : h.Bounds)
    (rest : Bytes) :
    read_u32At (serialize_header h ++ rest) 0 = h.magic ∧
    (serialize_header h ++ rest).getD 4 0 = h.version ∧
    (serialize_header h ++ rest).getD 5 0 = h.type ∧
    read_u16At (serialize_header h ++ rest) 6 = h.flags ∧
    read_u32At (serialize_header h ++ rest) 8 = h.payload_size := by
  obtain ⟨h1, h2, h3, h4, h5⟩ := hb
  simp only [serialize_header, write_u32, write_u16, List.cons_append,
    List.nil_append, read_u32At, read_u16At, List.getD_cons_zero,
    List.getD_cons_succ]
  refine ⟨by omega, by trivial, by trivial, by omega, by omega⟩

/-- `deserialize_header` inverts `serialize_header` on valid in-range
headers, ignoring any bytes after the first 12. -/
theorem deserialize_serialize_header (h : PacketHeader) (hb : h.Bounds)
    (hv : h.is_valid = true) (rest : Bytes) :
    deserialize_header (serialize_header h ++ rest) = .ok h := by
  obtain ⟨r1, r2, r3, r4, r5⟩ := header_fields_roundtrip h hb rest
  have hh : headerOf (serialize_header h ++ rest) = h := by
    unfold headerOf
    rw [r1, r2, r3, r4, r5]
  have hlen : ¬((serialize_header h ++ rest).length < PACKET_HEADER_SIZE) := by
    rw [List.length_append, serialize_header_length]; omega
  simp only [deserialize_header, hlen, if_false, hh, hv, if_true]

/-- C3: every in-range packet header with valid magic, version and
payload size round-trips bit-exactly through `serialize_header` /
`deserialize_header`; the concrete header
`{magic=0x44414553, version=1, type=0x10, flags=0, payload_size=1024}`
encodes to exactly `53 45 41 44 01 10 00 00 00 04 00 00` and decodes
back to the original. -/
theorem c3_header_roundtrip :
    (∀ h : PacketHeader, h.Bounds → h.is_valid = true →
      deserialize_header (serialize_header h) = .ok h) ∧
    serialize_header ⟨0x44414553, 1, 0x10, 0, 1024⟩ =
      [0x53, 0x45, 0x41, 0x44, 0x01, 0x10, 0x00, 0x00, 0x00, 0x04, 0x00, 0x00] ∧
    deserialize_header
        [0x53, 0x45, 0x41, 0x44, 0x01, 0x10, 0x00, 0x00, 0x00, 0x04, 0x00, 0x00] =
      .ok ⟨0x44414553, 1, 0x10, 0, 1024⟩ := by
  refine ⟨fun h hb hv => ?_, by rfl, by rfl⟩
  have := deserialize_serialize_header h hb hv []
  rwa [List.append_nil] at this

/-- Closed instance of `c3_header_roundtrip` at the spec's concrete
header, with both hypotheses discharged by evaluation. -/
theorem c3_header_roundtrip_witness :
    deserialize_header (serialize_header ⟨0x44414553, 1, 0x10, 0, 1024⟩) =
      .ok ⟨0x44414553, 1, 0x10, 0, 1024⟩ :=
  c3_header_roundtrip.1 ⟨0x44414553, 1, 0x10, 0, 1024⟩ (by decide) (by decide)

/-! ## Streaming packet parser (`PacketParser`, `protocol.cpp`) -/

/-- `class PacketParser` state: the internal byte buffer plus the (unused)
`parse_offset_` member. -/
structure PacketParser where
  buffer_ : Bytes
  parse_offset_ : Nat
deriving DecidableEq, Repr

/-- A freshly constructed parser. -/
def PacketParser.mkEmpty : PacketParser := ⟨[], 0⟩

/-- `PacketParser::feed`: append the data to the internal buffer. -/
def PacketParser.feed (p : PacketParser) (data : Bytes) : PacketParser :=
  { p with buffer_ := p.buffer_ ++ data }

/-- `PacketParser::has_packet` on a raw buffer. -/
def hasPacketIn (buf : Bytes) : Bool :=
  if buf.length < PACKET_HEADER_SIZE then false
  else decide (PACKET_HEADER_SIZE + read_u32At buf 8 ≤ buf.length)

/-- `PacketParser::has_packet`. -/
def PacketParser.has_packet (p : PacketParser) : Bool := hasPacketIn p.buffer_

/-- `PacketParser::next_packet`: on success, take the header and payload
prefix and erase it from the buffer; on failure leave the buffer alone. -/
def PacketParser.next_packet (p : PacketParser) :
    SdResult (PacketHeader × Bytes) × PacketParser :=
  if p.has_packet = false then
    (.error ⟨.InvalidState, "No complete packet available"⟩, p)
  else
    match deserialize_header (p.buffer_.take PACKET_HEADER_SIZE) with
    | .error e => (.error e, p)
    | .ok header =>
        (.ok (header, (p.buffer_.drop PACKET_HEADER_SIZE).take header.payload_size),
         { p with
            buffer_ := p.buffer_.drop (PACKET_HEADER_SIZE + header.payload_size) })

/-- `PacketParser::reset`. -/
def PacketParser.reset (_p : PacketParser) : PacketParser := ⟨[], 0⟩

/-- `PacketParser::buffered_size`. -/
def PacketParser.buffered_size (p : PacketParser) : Nat := p.buffer_.length

theorem hasPacketIn_le {buf : Bytes} (h : hasPacketIn buf = true) :
    PACKET_HEADER_SIZE + read_u32At buf 8 ≤ buf.length := by
  unfold hasPacketIn at h
  by_cases hl : buf.length < PACKET_HEADER_SIZE
  · simp [hl] at h
  · simpa [hl] using h

theorem hasPacketIn_iff (buf : Bytes) :
    hasPacketIn buf = true ↔
      PACKET_HEADER_SIZE ≤ buf.length ∧
        PACKET_HEADER_SIZE + read_u32At buf 8 ≤ buf.length := by
  unfold hasPacketIn
  by_cases hl : buf.length < PACKET_HEADER_SIZE
  · rw [if_pos hl]
    constructor
    · intro hc; cases hc
    · intro hc; exact absurd hl (by omega)
  · rw [if_neg hl, decide_eq_true_eq]
    omega

/-- Any `ok` result of `deserialize_header` is the record of the five raw
field reads. -/
theorem deserialize_header_ok_fields {b : Bytes} {h : PacketHeader}
    (hok : deserialize_header b = .ok h) : h = headerOf b := by
  unfold deserialize_header at hok
  split at hok
  · exact absurd hok (by simp)
  · split at hok
    · exact (Except.ok.inj hok).symm
    · split at hok
      · exact absurd hok (by simp)
      · split at hok
        · exact absurd hok (by simp)
        · split at hok
          · exact absurd hok (by simp)
          · exact (Except.ok.inj hok).symm

theorem getD_take_of_lt (l : Bytes) {n i : Nat} (h : i < n) :
    (l.take n).getD i 0 = l.getD i 0 := by
  by_cases hi : i < l.length
  · rw [List.getD_eq_getElem?_getD, List.getD_eq_getElem?_getD,
      List.getElem?_take, if_pos h]
  · have h1 : l.length ≤ i := Nat.le_of_not_lt hi
    have h2 : (l.take n).length ≤ i := le_trans (by rw [List.length_take]; omega) h1
    rw [List.getD_eq_default _ _ h1, List.getD_eq_default _ _ h2]

theorem read_u32At_take {buf : Bytes} {off : Nat} (h : off + 4 ≤ PACKET_HEADER_SIZE) :
    read_u32At (buf.take PACKET_HEADER_SIZE) off = read_u32At buf off := by
  unfold read_u32At
  rw [getD_take_of_lt _ (by omega), getD_take_of_lt _ (by omega),
    getD_take_of_lt _ (by omega), getD_take_of_lt _ (by omega)]

/-- On success, `next_packet` consumes exactly `12 + payload_size` bytes:
the new buffer is the old one with that prefix dropped, the payload is
that prefix after the header, and the old buffer splits as consumed
prefix plus new buffer. -/
theorem next_packet_ok_spec {p p' : PacketParser} {header : PacketHeader}
    {payload : Bytes}
    (h : p.next_packet = (.ok (header, payload), p')) :
    p'.buffer_ = p.buffer_.drop (PACKET_HEADER_SIZE + header.payload_size) ∧
    payload = (p.buffer_.drop PACKET_HEADER_SIZE).take header.payload_size ∧
    p.buffer_ = p.buffer_.take (PACKET_HEADER_SIZE + header.payload_size) ++ p'.buffer_ ∧
    p'.parse_offset_ = p.parse_offset_ ∧
    p.has_packet = true := by
  unfold PacketParser.next_packet at h
  split at h
  · exact absurd h (by simp)
  · rename_i hhp
    split at h
    · exact absurd h (by simp)
    · rename_i header' hok
      obtain ⟨h1, h2⟩ := Prod.mk.inj h
      obtain ⟨h3, h4⟩ := Prod.mk.inj (Except.ok.inj h1)
      subst h3
      refine ⟨by rw [← h2], by rw [h4], ?_, by rw [← h2], by simpa using hhp⟩
      rw [← h2]
      exact (List.take_append_drop _ _).symm

theorem next_packet_ok_shrinks {p p' : PacketParser}
    {pkt : PacketHeader × Bytes}
    (h : p.next_packet = (.ok pkt, p')) :
    p'.buffer_.length < p.buffer_.length := by
  obtain ⟨h1, _, _, _, h5⟩ := @next_packet_ok_spec p p' pkt.1 pkt.2 (by rw [h])
  have hle := @hasPacketIn_le p.buffer_ h5
  have hsz : PACKET_HEADER_SIZE = 12 := rfl
  rw [h1, List.length_drop]
  rw [hsz] at hle ⊢
  omega

/-! ### Repeated extraction

`extractAll` is the proof-side driver: it applies the `next_packet` step
to a raw buffer until the buffer holds no complete packet or its header
fails to deserialize (in which case `next_packet` leaves the buffer
unchanged, so a real caller would stop too). -/

/-- Extract complete packets from the front of a buffer until none is
available or the leading header is invalid; return the packets and the
remaining buffer. -/
def extractAll (buf : Bytes) : List (PacketHeader × Bytes) × Bytes :=
  if hp : hasPacketIn buf = true then
    match deserialize_header (buf.take PACKET_HEADER_SIZE) with
    | .error _ => ([], buf)
    | .ok header =>
        let r := extractAll (buf.drop (PACKET_HEADER_SIZE + header.payload_size))
        ((header, (buf.drop PACKET_HEADER_SIZE).take header.payload_size) :: r.1, r.2)
  else ([], buf)
termination_by buf.length
decreasing_by
  have hlen := hasPacketIn_le hp
  have hsz : PACKET_HEADER_SIZE = 12 := rfl
  rw [List.length_drop]
  rw [hsz] at hlen ⊢
  omega

theorem extractAll_no_packet {buf : Bytes} (h : hasPacketIn buf = false) :
    extractAll buf = ([], buf) := by
  rw [extractAll]
  rw [dif_neg (by rw [h]; simp)]

theorem extractAll_bad_header {buf : Bytes} {e : Error}
    (h : hasPacketIn buf = true)
    (hbad : deserialize_header (buf.take PACKET_HEADER_SIZE) = .error e) :
    extractAll buf = ([], buf) := by
  rw [extractAll]
  rw [dif_pos h]
  split
  · rfl
  · rename_i header hok
    rw [hbad] at hok
    cases hok

theorem extractAll_step {buf : Bytes} {header : PacketHeader}
    (h : hasPacketIn buf = true)
    (hok : deserialize_header (buf.take PACKET_HEADER_SIZE) = .ok header) :
    extractAll buf =
      ((header, (buf.drop PACKET_HEADER_SIZE).take header.payload_size) ::
          (extractAll (buf.drop (PACKET_HEADER_SIZE + header.payload_size))).1,
        (extractAll (buf.drop (PACKET_HEADER_SIZE + header.payload_size))).2) := by
  conv_lhs => rw [extractAll]
  rw [dif_pos h]
  split
  · rename_i e herr
    rw [hok] at herr
    cases herr
  · rename_i header' hok'
    rw [hok] at hok'
    cases hok'
    rfl

/-- Drain a parser by calling `next_packet` until it reports an error,
collecting the successfully returned `(header, payload)` pairs. -/
def PacketParser.drain (p : PacketParser) : List (PacketHeader × Bytes) × PacketParser :=
  match hnp : p.next_packet with
  | (.ok pkt, p') =>
      let r := p'.drain
      (pkt :: r.1, r.2)
  | (.error _, _) => ([], p)
termination_by p.buffer_.length
decreasing_by
  exact next_packet_ok_shrinks hnp

theorem drain_error {p q : PacketParser} {e : Error}
    (h : p.next_packet = (.error e, q)) : p.drain = ([], p) := by
  unfold PacketParser.drain
  split
  · rename_i pkt p' hnp
    rw [h] at hnp
    cases hnp
  · rfl

theorem drain_ok {p p' : PacketParser} {pkt : PacketHeader × Bytes}
    (h : p.next_packet = (.ok pkt, p')) :
    p.drain = (pkt :: p'.drain.1, p'.drain.2) := by
  conv_lhs => unfold PacketParser.drain
  split
  · rename_i pkt2 p2 hnp
    rw [h] at hnp
    obtain ⟨h1, h2⟩ := Prod.mk.inj hnp
    cases Except.ok.inj h1
    cases h2
    rfl
  · rename_i e q hnp
    rw [h] at hnp
    cases hnp

/-- `drain` is `extractAll` on the underlying buffer: same packets, and
the parser keeps the leftover buffer (the unused `parse_offset_` member
is untouched). -/
theorem drain_eq_extractAll (p : PacketParser) :
    p.drain = ((extractAll p.buffer_).1,
      ⟨(extractAll p.buffer_).2, p.parse_offset_⟩) := by
  by_cases hp : hasPacketIn p.buffer_ = true
  · cases hd : deserialize_header (p.buffer_.take PACKET_HEADER_SIZE) with
    | error e =>
        have hnp : p.next_packet = (.error e, p) := by
          unfold PacketParser.next_packet
          rw [if_neg (by rw [show p.has_packet = hasPacketIn p.buffer_ from rfl, hp]; simp),
            hd]
        rw [drain_error hnp, extractAll_bad_header hp hd]
    | ok header =>
        have hnp : p.next_packet =
            (.ok (header, (p.buffer_.drop PACKET_HEADER_SIZE).take header.payload_size),
             { p with buffer_ := p.buffer_.drop (PACKET_HEADER_SIZE + header.payload_size) }) := by
          unfold PacketParser.next_packet
          rw [if_neg (by rw [show p.has_packet = hasPacketIn p.buffer_ from rfl, hp]; simp),
            hd]
        have hlt : (p.buffer_.drop (PACKET_HEADER_SIZE + header.payload_size)).length <
            p.buffer_.length := next_packet_ok_shrinks hnp
        have ih := drain_eq_extractAll
          { p with buffer_ := p.buffer_.drop (PACKET_HEADER_SIZE + header.payload_size) }
        rw [drain_ok hnp, extractAll_step hp hd, ih]
  · have hp' : hasPacketIn p.buffer_ = false := by
      cases h : hasPacketIn p.buffer_
      · rfl
      · exact absurd h hp
    have hnp : p.next_packet = (.error ⟨.InvalidState, "No complete packet available"⟩, p) := by
      unfold PacketParser.next_packet
      rw [if_pos (by rw [show p.has_packet = hasPacketIn p.buffer_ from rfl, hp'])]
    rw [drain_error hnp, extractAll_no_packet hp']
termination_by p.buffer_.length
decreasing_by
  exact hlt

/-! ### Chunk-invariance of extraction -/

theorem read_u32At_append {buf c : Bytes} {off : Nat}
    (h : off + 4 ≤ buf.length) :
    read_u32At (buf ++ c) off = read_u32At buf off := by
  unfold read_u32At
  rw [List.getD_append _ _ _ _ (by omega), List.getD_append _ _ _ _ (by omega),
    List.getD_append _ _ _ _ (by omega), List.getD_append _ _ _ _ (by omega)]

theorem hasPacketIn_append {buf c : Bytes} (h : hasPacketIn buf = true) :
    hasPacketIn (buf ++ c) = true := by
  rw [hasPacketIn_iff] at h ⊢
  obtain ⟨h1, h2⟩ := h
  have hr : read_u32At (buf ++ c) 8 = read_u32At buf 8 :=
    read_u32At_append (by have : PACKET_HEADER_SIZE = 12 := rfl; omega)
  rw [List.length_append, hr]
  omega

theorem take_header_append {buf c : Bytes}
    (h : PACKET_HEADER_SIZE ≤ buf.length) :
    (buf ++ c).take PACKET_HEADER_SIZE = buf.take PACKET_HEADER_SIZE :=
  List.take_append_of_le_length h

/-- Appending bytes to a buffer and extracting is the same as extracting
first, then appending the bytes to the leftover and extracting again. -/
theorem extractAll_append (buf c : Bytes) :
    extractAll (buf ++ c) =
      ((extractAll buf).1 ++ (extractAll ((extractAll buf).2 ++ c)).1,
        (extractAll ((extractAll buf).2 ++ c)).2) := by
  by_cases hp : hasPacketIn buf = true
  · cases hd : deserialize_header (buf.take PACKET_HEADER_SIZE) with
    | error e =>
        rw [extractAll_bad_header hp hd]
        simp
    | ok header =>
        have h12 : PACKET_HEADER_SIZE ≤ buf.length :=
          le_trans (Nat.le_add_right _ _) (hasPacketIn_le hp)
        have hps : header.payload_size = read_u32At buf 8 := by
          have := deserialize_header_ok_fields hd
          rw [this]
          show read_u32At (buf.take PACKET_HEADER_SIZE) 8 = read_u32At buf 8
          exact read_u32At_take (by decide)
        have hfit : PACKET_HEADER_SIZE + header.payload_size ≤ buf.length := by
          rw [hps]; exact hasPacketIn_le hp
        have hp' : hasPacketIn (buf ++ c) = true := hasPacketIn_append hp
        have hd' : deserialize_header ((buf ++ c).take PACKET_HEADER_SIZE) = .ok header := by
          rw [take_header_append h12]; exact hd
        have hdrop : (buf ++ c).drop (PACKET_HEADER_SIZE + header.payload_size) =
            buf.drop (PACKET_HEADER_SIZE + header.payload_size) ++ c :=
          List.drop_append_of_le_length hfit
        have hpay : ((buf ++ c).drop PACKET_HEADER_SIZE).take header.payload_size =
            (buf.drop PACKET_HEADER_SIZE).take header.payload_size := by
          rw [List.drop_append_of_le_length h12]
          refine List.take_append_of_le_length ?_
          rw [List.length_drop]
          have hsz : PACKET_HEADER_SIZE = 12 := rfl
          rw [hsz] at hfit ⊢
          omega
        have ih := extractAll_append (buf.drop (PACKET_HEADER_SIZE + header.payload_size)) c
        rw [extractAll_step hp' hd', extractAll_step hp hd, hdrop, hpay, ih]
        simp
  · have hp0 : hasPacketIn buf = false := by
      cases h : hasPacketIn buf
      · rfl
      · exact absurd h hp
    rw [extractAll_no_packet hp0]
    simp
termination_by buf.length
decreasing_by
  have hlen := hasPacketIn_le hp
  have hsz : PACKET_HEADER_SIZE = 12 := rfl
  rw [List.length_drop]
  rw [hsz] at hlen ⊢
  omega

/-- A wire packet: a serialized header followed by its payload. -/
def encode_packet (pkt : PacketHeader × Bytes) : Bytes :=
  serialize_header pkt.1 ++ pkt.2

/-- A well-formed packet: header fields in machine range, header valid,
and `payload_size` equal to the actual payload length. -/
def ValidPacket (pkt : PacketHeader × Bytes) : Prop :=
  pkt.1.Bounds ∧ pkt.1.is_valid = true ∧ pkt.1.payload_size = pkt.2.length

instance (pkt : PacketHeader × Bytes) : Decidable (ValidPacket pkt) := by
  unfold ValidPacket; infer_instance

/-- A valid packet stream: the packets' encodings, concatenated. -/
def encode_stream (ps : List (PacketHeader × Bytes)) : Bytes :=
  (ps.map encode_packet).join

theorem extractAll_encode_packet {pkt : PacketHeader × Bytes}
    (hv : ValidPacket pkt) (rest : Bytes) :
    extractAll (encode_packet pkt ++ rest) =
      (pkt :: (extractAll rest).1, (extractAll rest).2) := by
  obtain ⟨hb, hval, hlen⟩ := hv
  have hser : (serialize_header pkt.1).length = PACKET_HEADER_SIZE :=
    serialize_header_length pkt.1
  have hbuf : encode_packet pkt ++ rest = serialize_header pkt.1 ++ (pkt.2 ++ rest) := by
    rw [encode_packet, List.append_assoc]
  have hfields := header_fields_roundtrip pkt.1 hb (pkt.2 ++ rest)
  have hlenbuf : (encode_packet pkt ++ rest).length =
      PACKET_HEADER_SIZE + pkt.2.length + rest.length := by
    rw [hbuf, List.length_append, List.length_append, hser]; omega
  have hp : hasPacketIn (encode_packet pkt ++ rest) = true := by
    rw [hasPacketIn_iff, hlenbuf]
    constructor
    · omega
    · rw [hbuf, hfields.2.2.2.2, hlen]
      omega
  have htake : (encode_packet pkt ++ rest).take PACKET_HEADER_SIZE =
      serialize_header pkt.1 := by
    rw [hbuf, ← hser, List.take_left]
  have hd : deserialize_header ((encode_packet pkt ++ rest).take PACKET_HEADER_SIZE) =
      .ok pkt.1 := by
    rw [htake]
    have := deserialize_serialize_header pkt.1 hb hval []
    rwa [List.append_nil] at this
  rw [extractAll_step hp hd]
  have hdrop12 : (encode_packet pkt ++ rest).drop PACKET_HEADER_SIZE = pkt.2 ++ rest := by
    rw [hbuf, ← hser, List.drop_left]
  have hpay : ((encode_packet pkt ++ rest).drop PACKET_HEADER_SIZE).take pkt.1.payload_size =
      pkt.2 := by
    rw [hdrop12, hlen, List.take_left]
  have hdroprest : (encode_packet pkt ++ rest).drop (PACKET_HEADER_SIZE + pkt.1.payload_size) =
      rest := by
    rw [encode_packet, List.append_assoc, ← hser, hlen]
    rw [← List.length_append (serialize_header pkt.1) pkt.2, ← List.append_assoc]
    exact List.drop_left _ _
  rw [hpay, hdroprest]

/-- Extracting a fully valid packet stream yields exactly its packets and
an empty leftover buffer. -/
theorem extractAll_encode_stream {ps : List (PacketHeader × Bytes)}
    (hv : ∀ pkt ∈ ps, ValidPacket pkt) :
    extractAll (encode_stream ps) = (ps, []) := by
  induction ps with
  | nil =>
      have : encode_stream [] = [] := rfl
      rw [this, extractAll_no_packet (by rfl)]
  | cons pkt ps ih =>
      have hstream : encode_stream (pkt :: ps) = encode_packet pkt ++ encode_stream ps := rfl
      rw [hstream, extractAll_encode_packet (hv pkt (by simp)) (encode_stream ps),
        ih (fun q hq => hv q (by simp [hq]))]

/-- The leftover buffer of an extraction yields nothing if re-extracted. -/
theorem extractAll_leftover (buf : Bytes) :
    extractAll ((extractAll buf).2) = ([], (extractAll buf).2) := by
  by_cases hp : hasPacketIn buf = true
  · cases hd : deserialize_header (buf.take PACKET_HEADER_SIZE) with
    | error e =>
        rw [extractAll_bad_header hp hd]
        exact extractAll_bad_header hp hd
    | ok header =>
        rw [extractAll_step hp hd]
        exact extractAll_leftover (buf.drop (PACKET_HEADER_SIZE + header.payload_size))
  · have hp0 : hasPacketIn buf = false := by
      cases h : hasPacketIn buf
      · rfl
      · exact absurd h hp
    rw [extractAll_no_packet hp0]
    exact extractAll_no_packet hp0
termination_by buf.length
decreasing_by
  have hlen := hasPacketIn_le hp
  have hsz : PACKET_HEADER_SIZE = 12 := rfl
  rw [List.length_drop]
  rw [hsz] at hlen ⊢
  omega

/-- Feed the chunks to a parser one at a time, calling `next_packet`
after each feed until it fails; collect all returned packets. -/
def processFeeds : PacketParser → List Bytes → List (PacketHeader × Bytes) × PacketParser
  | p, [] => ([], p)
  | p, chunk :: rest =>
      let r := (p.feed chunk).drain
      let r2 := processFeeds r.2 rest
      (r.1 ++ r2.1, r2.2)

/-- Chunked feeding is extraction of the concatenation, provided the
starting buffer is already drained. -/
theorem processFeeds_eq_extractAll (cs : List Bytes) (p : PacketParser)
    (hdrained : extractAll p.buffer_ = ([], p.buffer_)) :
    (processFeeds p cs).1 = (extractAll (p.buffer_ ++ cs.join)).1 ∧
      (processFeeds p cs).2.buffer_ = (extractAll (p.buffer_ ++ cs.join)).2 := by
  induction cs generalizing p with
  | nil =>
      have hjoin : ([] : List Bytes).join = [] := rfl
      rw [processFeeds, hjoin, List.append_nil, hdrained]
      exact ⟨rfl, rfl⟩
  | cons c rest ih =>
      have hjoin : (c :: rest).join = c ++ rest.join := rfl
      have hfeed : (p.feed c).buffer_ = p.buffer_ ++ c := rfl
      have hdrain := drain_eq_extractAll (p.feed c)
      have hnext : ((p.feed c).drain.2).buffer_ = (extractAll (p.buffer_ ++ c)).2 := by
        rw [hdrain, hfeed]
      have hdrained2 : extractAll ((p.feed c).drain.2.buffer_) =
          ([], (p.feed c).drain.2.buffer_) := by
        rw [hnext]
        exact extractAll_leftover (p.buffer_ ++ c)
      obtain ⟨ih1, ih2⟩ := ih ((p.feed c).drain.2) hdrained2
      have hdecomp := extractAll_append (p.buffer_ ++ c) rest.join
      constructor
      · show ((p.feed c).drain.1 ++ (processFeeds (p.feed c).drain.2 rest).1) =
          (extractAll (p.buffer_ ++ (c :: rest).join)).1
        rw [hjoin, ← List.append_assoc, hdecomp]
        rw [ih1, hnext, hdrain, hfeed]
      · show (processFeeds (p.feed c).drain.2 rest).2.buffer_ =
          (extractAll (p.buffer_ ++ (c :: rest).join)).2
        rw [hjoin, ← List.append_assoc, hdecomp, ih2, hnext]

/-- C2: feeding a valid packet stream to the parser in arbitrary chunks
yields exactly the stream's packets, the same as feeding it unchunked;
`has_packet` holds exactly when the buffer holds at least
`12 + payload_size_from_header` bytes; and a successful `next_packet`
consumes exactly that prefix, leaving a suffix of the prior buffer. -/
theorem c2_parser_chunk_invariance :
    (∀ (ps : List (PacketHeader × Bytes)) (cs : List Bytes),
      (∀ pkt ∈ ps, ValidPacket pkt) → cs.join = encode_stream ps →
      (processFeeds PacketParser.mkEmpty cs).1 = ps ∧
      (processFeeds PacketParser.mkEmpty cs).1 =
        (PacketParser.mkEmpty.feed (encode_stream ps)).drain.1) ∧
    (∀ p : PacketParser, p.has_packet = true ↔
      PACKET_HEADER_SIZE ≤ p.buffer_.length ∧
        PACKET_HEADER_SIZE + read_u32At p.buffer_ 8 ≤ p.buffer_.length) ∧
    (∀ (p p' : PacketParser) (header : PacketHeader) (payload : Bytes),
      p.next_packet = (.ok (header, payload), p') →
      p'.buffer_ = p.buffer_.drop (PACKET_HEADER_SIZE + header.payload_size) ∧
      payload = (p.buffer_.drop PACKET_HEADER_SIZE).take header.payload_size ∧
      p.buffer_ = p.buffer_.take (PACKET_HEADER_SIZE + header.payload_size) ++ p'.buffer_) := by
  refine ⟨fun ps cs hv hjoin => ?_, fun p => hasPacketIn_iff p.buffer_,
    fun p p' header payload h => ?_⟩
  · have hempty : extractAll (PacketParser.mkEmpty.buffer_) =
        ([], PacketParser.mkEmpty.buffer_) := extractAll_no_packet (by rfl)
    obtain ⟨h1, _⟩ := processFeeds_eq_extractAll cs PacketParser.mkEmpty hempty
    have hbufnil : PacketParser.mkEmpty.buffer_ = ([] : Bytes) := rfl
    rw [hbufnil, List.nil_append, hjoin, extractAll_encode_stream hv] at h1
    refine ⟨h1, ?_⟩
    have hdrain := drain_eq_extractAll (PacketParser.mkEmpty.feed (encode_stream ps))
    have hfeed : (PacketParser.mkEmpty.feed (encode_stream ps)).buffer_ =
        encode_stream ps := rfl
    rw [hdrain, hfeed, extractAll_encode_stream hv, h1]
  · obtain ⟨g1, g2, g3, _, _⟩ := next_packet_ok_spec h
    exact ⟨g1, g2, g3⟩

/-- Closed instance of `c2_parser_chunk_invariance`: the spec's split-feed
scenario — a Hello packet with payload `AA BB CC` fed in two pieces
(7 bytes, then 8) comes out whole. -/
theorem c2_parser_chunk_invariance_witness :
    (processFeeds PacketParser.mkEmpty
        [[0x53, 0x45, 0x41, 0x44, 0x01, 0x01, 0x00],
         [0x00, 0x03, 0x00, 0x00, 0x00, 0xAA, 0xBB, 0xCC]]).1 =
      [(⟨0x44414553, 1, 0x01, 0, 3⟩, [0xAA, 0xBB, 0xCC])] :=
  (c2_parser_chunk_invariance.1
    [(⟨0x44414553, 1, 0x01, 0, 3⟩, [0xAA, 0xBB, 0xCC])]
    [[0x53, 0x45, 0x41, 0x44, 0x01, 0x01, 0x00],
     [0x00, 0x03, 0x00, 0x00, 0x00, 0xAA, 0xBB, 0xCC]]
    (by decide) (by decide)).1

/-- C10: if the buffer holds a complete packet whose header fails
validation, `next_packet` returns that header's error and leaves the
parser untouched, so `has_packet` stays true and every later call fails
identically; `reset` clears the buffer. -/
theorem c10_bad_header_sticks (p : PacketParser) (e : Error)
    (hp : p.has_packet = true)
    (hbad : deserialize_header (p.buffer_.take PACKET_HEADER_SIZE) = .error e) :
    p.next_packet = (.error e, p) ∧
    (∀ n : Nat, (fun q : PacketParser => q.next_packet.2)^[n] p = p) ∧
    (∀ n : Nat, ((fun q : PacketParser => q.next_packet.2)^[n] p).next_packet =
      (.error e, p)) ∧
    p.reset.buffer_ = [] ∧ p.reset.has_packet = false := by
  have hnp : p.next_packet = (.error e, p) := by
    unfold PacketParser.next_packet
    rw [if_neg (by rw [hp]; simp), hbad]
  have hiter : ∀ n : Nat, (fun q : PacketParser => q.next_packet.2)^[n] p = p := by
    intro n
    induction n with
    | zero => rfl
    | succ k ihk =>
        rw [Function.iterate_succ_apply', ihk, hnp]
  refine ⟨hnp, hiter, fun n => by rw [hiter n]; exact hnp, rfl, rfl⟩

/-- Closed instance of `c10_bad_header_sticks`: a 12-byte packet with a
wrong magic number makes `next_packet` fail with `InvalidArgument`
("Invalid magic number") and leaves the buffer as it was. -/
theorem c10_bad_header_sticks_witness :
    (PacketParser.mk [0xFF, 0x45, 0x41, 0x44, 0x01, 0x01, 0x00, 0x00,
        0x00, 0x00, 0x00, 0x00] 0).next_packet =
      (.error ⟨.InvalidArgument, "Invalid magic number"⟩,
        PacketParser.mk [0xFF, 0x45, 0x41, 0x44, 0x01, 0x01, 0x00, 0x00,
          0x00, 0x00, 0x00, 0x00] 0) :=
  (c10_bad_header_sticks
    (PacketParser.mk [0xFF, 0x45, 0x41, 0x44, 0x01, 0x01, 0x00, 0x00,
      0x00, 0x00, 0x00, 0x00] 0)
    ⟨.InvalidArgument, "Invalid magic number"⟩ (by rfl) (by rfl)).1

/-! ## Message decoders: strings and transfer-accept (`protocol.cpp`) -/

/-- `read_string` (anonymous namespace): length-prefixed string with an
in-out offset. On a truncated length prefix it returns `""` and leaves
the offset alone; on a truncated body it returns `""` with the offset
past the length prefix. It never reports an error. -/
def read_string (d : Bytes) (offset : Nat) (max_size : Nat) : String × Nat :=
  if offset + 2 > max_size then ("", offset)
  else
    if offset + 2 + read_u16At d offset > max_size then ("", offset + 2)
    else
      (String.mk (((d.drop (offset + 2)).take (read_u16At d offset)).map Char.ofNat),
        offset + 2 + read_u16At d offset)

/-- `struct TransferId`: 16 bytes. -/
structure TransferId where
  data : Bytes
deriving DecidableEq, Repr

/-- `struct TransferAcceptMessage`. -/
structure TransferAcceptMessage where
  transfer_id : TransferId
  save_directory : String
deriving DecidableEq, Repr

/-- `deserialize_transfer_accept`. -/
def deserialize_transfer_accept (buf : Bytes) : SdResult TransferAcceptMessage :=
  if buf.length < 16 + 2 then
    .error ⟨.InvalidArgument, "Transfer accept too short"⟩
  else
    .ok ⟨⟨buf.take 16⟩, (read_string buf 16 buf.length).1⟩

/-- C4 (amended): `deserialize_header` rejects, in this priority order,
bad magic with `InvalidArgument` "Invalid magic number", version ≠ 1 with
`NotSupported` "Protocol version mismatch", and oversized payloads with
`InvalidArgument` "Payload too large"; `payload_size = 16 MiB` is
accepted; buffers under 12 bytes fail with "Header too short". Decoders
check a fixed minimum length up front ("... too short"), but a
length-prefixed string whose declared length overruns the buffer decodes
as the empty string with no error (there is no `DecodeTruncated` code). -/
theorem c4_decoder_rejections :
    (∀ buf : Bytes, ¬(buf.length < PACKET_HEADER_SIZE) →
      read_u32At buf 0 ≠ PROTOCOL_MAGIC →
      deserialize_header buf = .error ⟨.InvalidArgument, "Invalid magic number"⟩) ∧
    (∀ buf : Bytes, ¬(buf.length < PACKET_HEADER_SIZE) →
      read_u32At buf 0 = PROTOCOL_MAGIC → buf.getD 4 0 ≠ PROTOCOL_VERSION →
      deserialize_header buf = .error ⟨.NotSupported, "Protocol version mismatch"⟩) ∧
    (∀ buf : Bytes, ¬(buf.length < PACKET_HEADER_SIZE) →
      read_u32At buf 0 = PROTOCOL_MAGIC → buf.getD 4 0 = PROTOCOL_VERSION →
      read_u32At buf 8 > MAX_PAYLOAD_SIZE →
      deserialize_header buf = .error ⟨.InvalidArgument, "Payload too large"⟩) ∧
    (∀ buf : Bytes, buf.length < PACKET_HEADER_SIZE →
      deserialize_header buf = .error ⟨.InvalidArgument, "Header too short"⟩) ∧
    (∀ h : PacketHeader, h.Bounds → h.magic = PROTOCOL_MAGIC →
      h.version = PROTOCOL_VERSION → h.payload_size = MAX_PAYLOAD_SIZE →
      deserialize_header (serialize_header h) = .ok h) ∧
    (∀ buf : Bytes, buf.length < 18 →
      deserialize_transfer_accept buf =
        .error ⟨.InvalidArgument, "Transfer accept too short"⟩) ∧
    (∀ buf : Bytes, 18 ≤ buf.length → buf.length < 18 + read_u16At buf 16 →
      deserialize_transfer_accept buf = .ok ⟨⟨buf.take 16⟩, ""⟩) := by
  refine ⟨fun buf hlen hm => ?_, fun buf hlen hm hv => ?_,
    fun buf hlen hm hv hp => ?_, fun buf hlen => ?_,
    fun h hb hm hv hp => ?_, fun buf hlen => ?_, fun buf h1 h2 => ?_⟩
  · have hvalid : (headerOf buf).is_valid = false := by
      unfold PacketHeader.is_valid headerOf
      simp only [Bool.and_eq_false_iff]
      left; left
      simpa using hm
    rw [deserialize_header, if_neg hlen, hvalid]
    simp only [Bool.false_eq_true, if_false]
    rw [if_pos (by simpa using hm)]
  · have hvalid : (headerOf buf).is_valid = false := by
      unfold PacketHeader.is_valid headerOf
      simp only [Bool.and_eq_false_iff]
      left; right
      simpa using hv
    rw [deserialize_header, if_neg hlen, hvalid]
    simp only [Bool.false_eq_true, if_false]
    rw [if_neg (by simpa [headerOf] using hm), if_pos (by simpa [headerOf] using hv)]
  · have hvalid : (headerOf buf).is_valid = false := by
      unfold PacketHeader.is_valid headerOf
      simp only [Bool.and_eq_false_iff]
      right
      simpa using hp
    rw [deserialize_header, if_neg hlen, hvalid]
    simp only [Bool.false_eq_true, if_false]
    rw [if_neg (by simpa [headerOf] using hm), if_neg (by simpa [headerOf] using hv),
      if_pos (by simpa [headerOf] using hp)]
  · rw [deserialize_header, if_pos hlen]
  · have hval : h.is_valid = true := by
      unfold PacketHeader.is_valid
      rw [hm, hv, hp]
      decide
    have := deserialize_serialize_header h hb hval []
    rwa [List.append_nil] at this
  · rw [deserialize_transfer_accept, if_pos (by omega)]
  · rw [deserialize_transfer_accept, if_neg (by omega)]
    have hstr : (read_string buf 16 buf.length).1 = "" := by
      unfold read_string
      by_cases hc : 16 + 2 > buf.length
      · rw [if_pos hc]
      · rw [if_neg hc, if_pos (by omega)]
    rw [hstr]

/-- Closed instance of `c4_decoder_rejections`: a 12-byte header whose
first byte spoils the magic is rejected with "Invalid magic number". -/
theorem c4_decoder_rejections_witness :
    deserialize_header [0xFF, 0x45, 0x41, 0x44, 0x01, 0x01, 0x00, 0x00,
        0x00, 0x00, 0x00, 0x00] =
      .error ⟨.InvalidArgument, "Invalid magic number"⟩ :=
  c4_decoder_rejections.1
    [0xFF, 0x45, 0x41, 0x44, 0x01, 0x01, 0x00, 0x00, 0x00, 0x00, 0x00, 0x00]
    (by decide) (by decide)

/-- C4 counterexample: an 18-byte transfer-accept whose string field
declares 5 bytes but provides none decodes successfully to an empty
`save_directory` — it does not fail, and no `DecodeTruncated` (or any
other) error is produced for this short buffer. -/
theorem c4_truncated_decodes_ok :
    deserialize_transfer_accept (List.replicate 16 0x41 ++ [5, 0]) =
      .ok ⟨⟨List.replicate 16 0x41⟩, ""⟩ ∧
    (List.replicate 16 0x41 ++ [5, 0]).length <
      16 + 2 + read_u16At (List.replicate 16 0x41 ++ [5, 0]) 16 :=
  ⟨by rfl, by decide⟩

/-! ## Devices, trust levels and the trust store (`device.h`, `device.cpp`) -/

/-- `enum class TrustLevel` from `device.h`. -/
inductive TrustLevel where
  | Unknown
  | Discovered
  | PairingPending
  | Trusted
  | Blocked
deriving DecidableEq, Repr

/-- `enum class TrustZone` from `distance.h`. -/
inductive TrustZone where
  | Intimate
  | Close
  | Nearby
  | Far
  | Unknown
deriving DecidableEq, Repr

/-- The C++ enumerator values (`Intimate = 0 … Far = 3, Unknown = 255`),
used where the source casts the enum to `int`. -/
def TrustZone.toNat : TrustZone → Nat
  | .Intimate => 0
  | .Close => 1
  | .Nearby => 2
  | .Far => 3
  | .Unknown => 255

/-- `struct DeviceId`: 32 bytes. -/
structure DeviceId where
  data : Bytes
deriving DecidableEq, Repr

/-- Lowercase hex digit. -/
def hexDigit (n : Nat) : Char :=
  if n < 10 then Char.ofNat (0x30 + n) else Char.ofNat (0x61 + n - 10)

/-- `DeviceId::to_hex` (`types.cpp`): two lowercase hex chars per byte. -/
def DeviceId.to_hex (id : DeviceId) : String :=
  String.mk (id.data.foldr (fun b acc => hexDigit (b / 16 % 16) :: hexDigit (b % 16) :: acc) [])

/-- `struct Device` from `device.h`. Fields that no modelled operation
reads or writes (platform, capabilities, connection state, distance,
timestamps other than `paired_at`, notes) are omitted; they are inert
payload in `device.cpp`. -/
structure Device where
  id : DeviceId
  name : String
  trust_level : TrustLevel
  paired_at : Nat
  user_alias : String
deriving DecidableEq, Repr

/-- `Device::is_trusted`. -/
def Device.is_trusted (d : Device) : Bool := d.trust_level == TrustLevel.Trusted

/-- `Device::is_blocked`. -/
def Device.is_blocked (d : Device) : Bool := d.trust_level == TrustLevel.Blocked

/-- `Device::can_auto_accept_files` (`device.cpp`): trusted peers
auto-accept in the Intimate and Close zones only. -/
def Device.can_auto_accept_files (d : Device) (zone : TrustZone) : Bool :=
  if d.trust_level ≠ TrustLevel.Trusted then false
  else
    match zone with
    | .Intimate => true
    | .Close => true
    | .Nearby => false
    | .Far => false
    | .Unknown => false

/-- `Device::can_auto_clipboard` (`device.cpp`): trusted peers in the
Intimate zone only. -/
def Device.can_auto_clipboard (d : Device) (zone : TrustZone) : Bool :=
  if d.trust_level ≠ TrustLevel.Trusted then false
  else zone == TrustZone.Intimate

/-- The in-memory state of `DeviceStore::Impl`: the `devices` and
`shared_keys` maps, both keyed by the id's hex string as in the source
(`device_key`). `std::map` is modelled as a partial function. -/
structure DeviceStoreState where
  devices : String → Option Device
  shared_keys : String → Option Bytes

/-- `std::map` insert-or-assign (`m[k] = v`). -/
def mapSet {α : Type} (m : String → Option α) (k : String) (v : α) :
    String → Option α :=
  fun q => if q = k then some v else m q

/-- `std::map::erase`. -/
def mapErase {α : Type} (m : String → Option α) (k : String) :
    String → Option α :=
  fun q => if q = k then none else m q

/-- `DeviceStore::get_device`. -/
def get_device (s : DeviceStoreState) (id : DeviceId) : SdResult Device :=
  match s.devices id.to_hex with
  | none => .error ⟨.RecordNotFound, "Device not found"⟩
  | some d => .ok d

/-- `DeviceStore::is_trusted`. -/
def store_is_trusted (s : DeviceStoreState) (id : DeviceId) : Bool :=
  match get_device s id with
  | .ok d => d.trust_level == TrustLevel.Trusted
  | .error _ => false

/-- `DeviceStore::is_blocked`. -/
def store_is_blocked (s : DeviceStoreState) (id : DeviceId) : Bool :=
  match get_device s id with
  | .ok d => d.trust_level == TrustLevel.Blocked
  | .error _ => false

/-- `DeviceStore::save_device`. -/
def save_device (s : DeviceStoreState) (device : Device) :
    SdResult Unit × DeviceStoreState :=
  (.ok (), { s with devices := mapSet s.devices device.id.to_hex device })

/-- `DeviceStore::trust_device`: requires the record; sets
`trust_level = Trusted`, `paired_at = now`, stores the shared key. -/
def trust_device (s : DeviceStoreState) (id : DeviceId) (shared_key : Bytes)
    (now : Nat) : SdResult Unit × DeviceStoreState :=
  match s.devices id.to_hex with
  | none => (.error ⟨.RecordNotFound, "Device not found"⟩, s)
  | some d =>
      (.ok (),
        { devices := mapSet s.devices id.to_hex
            { d with trust_level := TrustLevel.Trusted, paired_at := now }
          shared_keys := mapSet s.shared_keys id.to_hex shared_key })

/-- `DeviceStore::block_device`: sets `Blocked` and erases the key. -/
def block_device (s : DeviceStoreState) (id : DeviceId) :
    SdResult Unit × DeviceStoreState :=
  match s.devices id.to_hex with
  | none => (.error ⟨.RecordNotFound, "Device not found"⟩, s)
  | some d =>
      (.ok (),
        { devices := mapSet s.devices id.to_hex
            { d with trust_level := TrustLevel.Blocked }
          shared_keys := mapErase s.shared_keys id.to_hex })

/-- `DeviceStore::untrust_device`: sets `Discovered` and erases the key. -/
def untrust_device (s : DeviceStoreState) (id : DeviceId) :
    SdResult Unit × DeviceStoreState :=
  match s.devices id.to_hex with
  | none => (.error ⟨.RecordNotFound, "Device not found"⟩, s)
  | some d =>
      (.ok (),
        { devices := mapSet s.devices id.to_hex
            { d with trust_level := TrustLevel.Discovered }
          shared_keys := mapErase s.shared_keys id.to_hex })

/-- `DeviceStore::unblock_device`: sets `Discovered`; the `shared_keys`
map is not touched (unlike `untrust_device`, there is no `erase`). -/
def unblock_device (s : DeviceStoreState) (id : DeviceId) :
    SdResult Unit × DeviceStoreState :=
  match s.devices id.to_hex with
  | none => (.error ⟨.RecordNotFound, "Device not found"⟩, s)
  | some d =>
      let d2 : Device := { d with trust_level := TrustLevel.Discovered }
      (.ok (), { s with devices := mapSet s.devices id.to_hex d2 })

/-- `DeviceStore::get_shared_key`: a missing key yields
`DeviceNotTrusted`, not `RecordNotFound`. -/
def get_shared_key (s : DeviceStoreState) (id : DeviceId) : SdResult Bytes :=
  match s.shared_keys id.to_hex with
  | none => .error ⟨.DeviceNotTrusted, "No shared key for device"⟩
  | some k => .ok k

theorem mapSet_self {α : Type} (m : String → Option α) (k : String) (v : α) :
    mapSet m k v k = some v := by
  unfold mapSet
  rw [if_pos rfl]

theorem mapErase_self {α : Type} (m : String → Option α) (k : String) :
    mapErase m k k = none := by
  unfold mapErase
  rw [if_pos rfl]

/-- C5 (amended): for a device present in the store, `trust_device`
makes `get_shared_key` return the key and `is_trusted` hold;
`block_device` makes `is_blocked` hold and `get_shared_key` fail with
`DeviceNotTrusted` (not `RecordNotFound`); `untrust_device` sets
`Discovered` and deletes the stored key; `unblock_device` sets
`Discovered` but leaves the `shared_keys` map untouched. -/
theorem c5_trust_store_lifecycle (s : DeviceStoreState) (id : DeviceId)
    (d : Device) (k : Bytes) (now : Nat)
    (hd : s.devices id.to_hex = some d) :
    (trust_device s id k now).1 = .ok () ∧
    get_shared_key (trust_device s id k now).2 id = .ok k ∧
    store_is_trusted (trust_device s id k now).2 id = true ∧
    (block_device s id).1 = .ok () ∧
    store_is_blocked (block_device s id).2 id = true ∧
    get_shared_key (block_device s id).2 id =
      .error ⟨.DeviceNotTrusted, "No shared key for device"⟩ ∧
    get_device (untrust_device s id).2 id =
      .ok { d with trust_level := TrustLevel.Discovered } ∧
    get_shared_key (untrust_device s id).2 id =
      .error ⟨.DeviceNotTrusted, "No shared key for device"⟩ ∧
    get_device (unblock_device s id).2 id =
      .ok { d with trust_level := TrustLevel.Discovered } ∧
    (unblock_device s id).2.shared_keys = s.shared_keys := by
  unfold trust_device block_device untrust_device unblock_device
  rw [hd]
  dsimp only
  refine ⟨rfl, ?_, ?_, rfl, ?_, ?_, ?_, ?_, ?_, rfl⟩
  · simp [get_shared_key, mapSet_self]
  · simp [store_is_trusted, get_device, mapSet_self]
  · simp [store_is_blocked, get_device, mapSet_self]
  · simp [get_shared_key, mapErase_self]
  · simp [get_device, mapSet_self]
  · simp [get_shared_key, mapErase_self]
  · simp [get_device, mapSet_self]

/-- Closed instance of `c5_trust_store_lifecycle` on a one-device store:
trust then read back the key. -/
theorem c5_trust_store_lifecycle_witness :
    get_shared_key
      (trust_device
        ⟨fun q => if q = (DeviceId.mk (List.replicate 32 1)).to_hex then
            some ⟨⟨List.replicate 32 1⟩, "Phone", TrustLevel.Discovered, 0, ""⟩
          else none,
         fun _ => none⟩
        ⟨List.replicate 32 1⟩ [1, 2, 3] 5).2
      ⟨List.replicate 32 1⟩ = .ok [1, 2, 3] :=
  (c5_trust_store_lifecycle
    ⟨fun q => if q = (DeviceId.mk (List.replicate 32 1)).to_hex then
        some ⟨⟨List.replicate 32 1⟩, "Phone", TrustLevel.Discovered, 0, ""⟩
      else none,
     fun _ => none⟩
    ⟨List.replicate 32 1⟩
    ⟨⟨List.replicate 32 1⟩, "Phone", TrustLevel.Discovered, 0, ""⟩
    [1, 2, 3] 5 (by decide)).2.1

/-- C5 counterexample: on a store holding one trusted device,
`get_shared_key` after `block_device` fails with `DeviceNotTrusted`
("No shared key for device"), not `RecordNotFound` as claimed; and after
`trust_device` followed by `unblock_device` the shared key is still
returned — `unblock_device` deletes no key. -/
theorem c5_block_unblock_counterexample :
    get_shared_key
      (block_device
        (trust_device
          ⟨fun q => if q = (DeviceId.mk (List.replicate 32 1)).to_hex then
              some ⟨⟨List.replicate 32 1⟩, "Phone", TrustLevel.Discovered, 0, ""⟩
            else none,
           fun _ => none⟩
          ⟨List.replicate 32 1⟩ [1, 2, 3] 5).2
        ⟨List.replicate 32 1⟩).2
      ⟨List.replicate 32 1⟩ =
      .error ⟨.DeviceNotTrusted, "No shared key for device"⟩ ∧
    ErrorCode.DeviceNotTrusted ≠ ErrorCode.RecordNotFound ∧
    get_shared_key
      (unblock_device
        (trust_device
          ⟨fun q => if q = (DeviceId.mk (List.replicate 32 1)).to_hex then
              some ⟨⟨List.replicate 32 1⟩, "Phone", TrustLevel.Discovered, 0, ""⟩
            else none,
           fun _ => none⟩
          ⟨List.replicate 32 1⟩ [1, 2, 3] 5).2
        ⟨List.replicate 32 1⟩).2
      ⟨List.replicate 32 1⟩ = .ok [1, 2, 3] :=
  ⟨by decide, by decide, by decide⟩

/-- C6: a device whose trust level is not `Trusted` (in particular a
`Blocked` one) never auto-accepts files and never auto-pushes clipboard,
in every zone; and `can_auto_clipboard` is true exactly when the device
is `Trusted` and the zone is `Intimate`. -/
theorem c6_zone_permission_gating :
    (∀ (d : Device) (zone : TrustZone), d.trust_level ≠ TrustLevel.Trusted →
      d.can_auto_accept_files zone = false ∧ d.can_auto_clipboard zone = false) ∧
    (∀ (d : Device) (zone : TrustZone),
      d.can_auto_clipboard zone = true ↔
        d.trust_level = TrustLevel.Trusted ∧ zone = TrustZone.Intimate) ∧
    (∀ (d : Device) (zone : TrustZone),
      d.can_auto_accept_files zone = true ↔
        d.trust_level = TrustLevel.Trusted ∧
          (zone = TrustZone.Intimate ∨ zone = TrustZone.Close)) := by
  refine ⟨fun d zone hnt => ?_, fun d zone => ?_, fun d zone => ?_⟩
  · unfold Device.can_auto_accept_files Device.can_auto_clipboard
    rw [if_pos hnt, if_pos hnt]
    exact ⟨rfl, rfl⟩
  · unfold Device.can_auto_clipboard
    cases hl : d.trust_level <;> cases zone <;> simp [hl]
  · unfold Device.can_auto_accept_files
    cases hl : d.trust_level <;> cases zone <;> simp [hl]

/-- Closed instance of `c6_zone_permission_gating`: a blocked device in
the Intimate zone can neither auto-accept nor auto-clipboard. -/
theorem c6_zone_permission_gating_witness :
    (Device.mk ⟨List.replicate 32 2⟩ "Spammer" TrustLevel.Blocked 0
        "").can_auto_accept_files TrustZone.Intimate = false ∧
    (Device.mk ⟨List.replicate 32 2⟩ "Spammer" TrustLevel.Blocked 0
        "").can_auto_clipboard TrustZone.Intimate = false :=
  c6_zone_permission_gating.1
    (Device.mk ⟨List.replicate 32 2⟩ "Spammer" TrustLevel.Blocked 0 "")
    TrustZone.Intimate (by decide)

/-! ## State machines (`state_machine.cpp`)

Each machine has a `static const std::map<State, std::set<State>>`
transition table; `transition(to)` fails with `ErrorCode::InvalidState`
("Unknown state: …" when the current state has no table entry, otherwise
"Invalid transition: … -> …") and leaves the state unchanged. The table
is modelled as `State → Option (List State)`; `Option` distinguishes a
missing `std::map` entry (`TransferState::Connecting` has none). -/

/-- `enum class TransferState` from `types.h` (note `Connecting`, which
the transition table does not mention). -/
inductive TransferState where
  | Pending
  | AwaitingAccept
  | Preparing
  | Connecting
  | InProgress
  | Paused
  | Completed
  | Cancelled
  | Failed
  | Rejected
deriving DecidableEq, Fintype, Repr

/-- `enum class ConnectionState` from `connection.h`. -/
inductive ConnectionState where
  | Disconnected
  | Connecting
  | Establishing
  | Handshaking
  | Connected
  | Disconnecting
  | Lost
  | Error
deriving DecidableEq, Fintype, Repr

/-- `enum class DiscoveryState` from `discovery.h`. -/
inductive DiscoveryState where
  | Uninitialized
  | Idle
  | Advertising
  | Scanning
  | Active
  | Error
deriving DecidableEq, Fintype, Repr

/-- `TransferStateMachine::valid_transitions_` (the declared table). -/
def transferTable : TransferState → Option (List TransferState)
  | .Pending => some [.AwaitingAccept, .Cancelled, .Failed]
  | .AwaitingAccept => some [.Preparing, .Rejected, .Cancelled, .Failed]
  | .Preparing => some [.InProgress, .Failed, .Cancelled]
  | .InProgress => some [.Paused, .Completed, .Cancelled, .Failed]
  | .Paused => some [.InProgress, .Cancelled, .Failed]
  | .Completed => some []
  | .Cancelled => some []
  | .Rejected => some []
  | .Failed => some []
  | .Connecting => none

/-- `ConnectionStateMachine::valid_transitions_`. -/
def connectionTable : ConnectionState → Option (List ConnectionState)
  | .Disconnected => some [.Connecting]
  | .Connecting => some [.Establishing, .Disconnected, .Error]
  | .Establishing => some [.Handshaking, .Disconnected, .Error]
  | .Handshaking => some [.Connected, .Disconnected, .Error]
  | .Connected => some [.Disconnecting, .Lost]
  | .Disconnecting => some [.Disconnected]
  | .Lost => some [.Connecting, .Disconnected]
  | .Error => some [.Disconnected]

/-- `DiscoveryStateMachine::valid_transitions_`. -/
def discoveryTable : DiscoveryState → Option (List DiscoveryState)
  | .Uninitialized => some [.Idle]
  | .Idle => some [.Advertising, .Scanning, .Active, .Error]
  | .Advertising => some [.Active, .Idle, .Scanning]
  | .Scanning => some [.Active, .Idle, .Advertising]
  | .Active => some [.Advertising, .Scanning, .Idle]
  | .Error => some [.Idle, .Uninitialized]

/-- Generic `transition(to)` body shared verbatim by the three machines:
missing table entry → `InvalidState` "unknown state" error; target not in
the entry → `InvalidState` "invalid transition" error; otherwise update
the state. Returns the result and the new state. -/
def genTransition {σ : Type} [DecidableEq σ]
    (table : σ → Option (List σ)) (unknownMsg invalidMsg : String)
    (state : σ) (toState : σ) : SdResult Unit × σ :=
  match table state with
  | none => (.error ⟨.InvalidState, unknownMsg⟩, state)
  | some allowed =>
      if toState ∈ allowed then (.ok (), toState)
      else (.error ⟨.InvalidState, invalidMsg⟩, state)

/-- `TransferStateMachine::transition`. -/
def transferTransition (state toState : TransferState) : SdResult Unit × TransferState :=
  genTransition transferTable "Unknown state" "Invalid transition" state toState

/-- `ConnectionStateMachine::transition` (a single combined check in the
source, same observable behaviour). -/
def connectionTransition (state toState : ConnectionState) :
    SdResult Unit × ConnectionState :=
  genTransition connectionTable "Invalid connection transition"
    "Invalid connection transition" state toState

/-- `DiscoveryStateMachine::transition`. -/
def discoveryTransition (state toState : DiscoveryState) :
    SdResult Unit × DiscoveryState :=
  genTransition discoveryTable "Invalid discovery transition"
    "Invalid discovery transition" state toState

/-- `TransferStateMachine::valid_transitions`: the table row, or empty
when the state has no row. -/
def transferValidTransitions (state : TransferState) : List TransferState :=
  (transferTable state).getD []

/-- `TransferStateMachine::is_terminal`. -/
def transferIsTerminal (state : TransferState) : Bool :=
  state == .Completed || state == .Cancelled || state == .Rejected ||
    state == .Failed

/-- C7: for each of the three machines, `transition` succeeds exactly
when the target is in the declared table's allowed set for the current
state; on failure the state is unchanged and the error code is
`InvalidState` (the code's value for the spec's `InvalidTransition`);
and every terminal transfer state has an empty `valid_transitions()`. -/
theorem c7_state_machine_tables :
    (∀ s t : TransferState,
      ((transferTransition s t).1 = .ok () ↔ t ∈ (transferTable s).getD []) ∧
      ((transferTransition s t).1 = .ok () → (transferTransition s t).2 = t) ∧
      ((transferTransition s t).1 ≠ .ok () → (transferTransition s t).2 = s ∧
        (transferTransition s t).1.isOk = false)) ∧
    (∀ s t : ConnectionState,
      ((connectionTransition s t).1 = .ok () ↔ t ∈ (connectionTable s).getD []) ∧
      ((connectionTransition s t).1 = .ok () → (connectionTransition s t).2 = t) ∧
      ((connectionTransition s t).1 ≠ .ok () → (connectionTransition s t).2 = s ∧
        (connectionTransition s t).1.isOk = false)) ∧
    (∀ s t : DiscoveryState,
      ((discoveryTransition s t).1 = .ok () ↔ t ∈ (discoveryTable s).getD []) ∧
      ((discoveryTransition s t).1 = .ok () → (discoveryTransition s t).2 = t) ∧
      ((discoveryTransition s t).1 ≠ .ok () → (discoveryTransition s t).2 = s ∧
        (discoveryTransition s t).1.isOk = false)) ∧
    (∀ s t : TransferState, (transferTransition s t).1.isOk = false →
      (transferTransition s t).1 = .error ⟨.InvalidState, "Unknown state"⟩ ∨
        (transferTransition s t).1 = .error ⟨.InvalidState, "Invalid transition"⟩) ∧
    (∀ s : TransferState, transferIsTerminal s = true →
      transferValidTransitions s = []) := by
  refine ⟨?_, ?_, ?_, ?_, ?_⟩
  · decide
  · decide
  · decide
  · decide
  · decide

/-- Closed instance of `c7_state_machine_tables`: the walk
`Pending → AwaitingAccept` succeeds, `Pending → Completed` is refused
with the state left at `Pending`. -/
theorem c7_state_machine_tables_witness :
    (transferTransition .Pending .AwaitingAccept).1 = .ok () ∧
    (transferTransition .Pending .Completed).2 = .Pending ∧
    (transferTransition .Pending .Completed).1.isOk = false ∧
    transferValidTransitions .Completed = [] :=
  ⟨(c7_state_machine_tables.1 TransferState.Pending
      TransferState.AwaitingAccept).1.mpr (by decide),
   ((c7_state_machine_tables.1 TransferState.Pending
      TransferState.Completed).2.2 (by decide)).1,
   ((c7_state_machine_tables.1 TransferState.Pending
      TransferState.Completed).2.2 (by decide)).2,
   c7_state_machine_tables.2.2.2.2 TransferState.Completed (by decide)⟩

/-! ## Distance monitor (`distance.h`, `distance.cpp`)

`DistanceMonitor::Impl::process_reading` is modelled as a pure step over
one device's `DeviceData`; the `zone_changed` / `security_alert`
callbacks become returned `Option` values (assuming callbacks are
installed). `now` (the source's `steady_clock::now()`) is an explicit
argument. The float-valued fields `distance_meters` and `confidence`
(log/pow arithmetic) are outside the embedding; no claim mentions them. -/

/-- `struct RssiReading`. -/
structure RssiReading where
  rssi_dbm : Int
  timestamp : Nat
  is_bluetooth : Bool
deriving DecidableEq, Repr

/-- `struct DistanceInfo` (without the two float fields). -/
structure DistanceInfo where
  rssi_dbm : Int
  rssi_smoothed : Int
  zone : TrustZone
  signal_bars : Nat
  is_stable : Bool
  last_update : Nat
deriving DecidableEq, Repr

/-- `struct ZoneThresholds`, RSSI part (the metre fields only feed the
float conversion that produces these integers). -/
structure ZoneThresholds where
  intimate_rssi : Int
  close_rssi : Int
  nearby_rssi : Int
deriving DecidableEq, Repr

/-- `rssi_to_signal_bars`. -/
def rssi_to_signal_bars (rssi_dbm : Int) : Nat :=
  if rssi_dbm ≥ -55 then 4
  else if rssi_dbm ≥ -70 then 3
  else if rssi_dbm ≥ -85 then 2
  else 1

/-- `rssi_to_zone`. -/
def rssi_to_zone (rssi_dbm : Int) (thresholds : ZoneThresholds) : TrustZone :=
  if rssi_dbm ≥ thresholds.intimate_rssi then .Intimate
  else if rssi_dbm ≥ thresholds.close_rssi then .Close
  else if rssi_dbm ≥ thresholds.nearby_rssi then .Nearby
  else .Far

/-- `Impl::calculate_smoothed_rssi`: integer mean with C++ truncating
division. -/
def calculate_smoothed_rssi (readings : List RssiReading) : Int :=
  if readings.isEmpty then -100
  else Int.div ((readings.map (·.rssi_dbm)).sum) readings.length

/-- The `while (size > window) pop_front()` eviction loop (structural on
the buffer: each iteration pops the front). -/
def evictOld (l : List RssiReading) (window : Nat) : List RssiReading :=
  match l with
  | [] => []
  | x :: t => if (x :: t).length > window then evictOld t window else x :: t

/-- Minimum `rssi_dbm` of a buffer, initialized from the front element as
in the source. -/
def minRssi (l : List RssiReading) : Int :=
  match l with
  | [] => -100
  | r :: t => t.foldl (fun m x => min m x.rssi_dbm) r.rssi_dbm

/-- Maximum `rssi_dbm` of a buffer. -/
def maxRssi (l : List RssiReading) : Int :=
  match l with
  | [] => -100
  | r :: t => t.foldl (fun m x => max m x.rssi_dbm) r.rssi_dbm

/-- Per-device state (`Impl::DeviceData`): ring buffer, last info, last
reported zone (initially `Unknown`), time of last zone change (initially
the epoch). -/
structure DeviceData where
  readings : List RssiReading
  current_info : DistanceInfo
  last_zone : TrustZone
  last_zone_change : Nat
deriving DecidableEq, Repr

/-- Monitor configuration (`Impl` fields). -/
structure MonitorConfig where
  thresholds : ZoneThresholds
  smoothing_window : Nat
  zone_hysteresis : Nat
deriving DecidableEq, Repr

/-- `struct ZoneChangeEvent`. -/
structure ZoneChangeEvent where
  device_id : DeviceId
  previous_zone : TrustZone
  current_zone : TrustZone
  distance_info : DistanceInfo
  is_moving_closer : Bool
  requires_security_alert : Bool
  timestamp : Nat
deriving DecidableEq, Repr

/-- The fixed security-alert message of `process_reading`. -/
def securityAlertMsg : String :=
  "Device moved to far zone unexpectedly. Verify before accepting transfers."

/-- `Impl::process_reading`: push and evict, smooth, classify, update
info, and emit a zone-change event (plus possibly a security alert) when
the zone differs from the last reported one and the hysteresis window
has passed. The source nests the two conditions in two `if`s with no
action between them; they are modelled as one conjunction. -/
def process_reading (cfg : MonitorConfig) (device_id : DeviceId)
    (data : DeviceData) (reading : RssiReading) (now : Nat) :
    DeviceData × Option ZoneChangeEvent × Option String :=
  let readings := evictOld (data.readings ++ [reading]) cfg.smoothing_window
  let smoothed := calculate_smoothed_rssi readings
  let zone := rssi_to_zone smoothed cfg.thresholds
  let is_stable :=
    if readings.length ≥ cfg.smoothing_window then
      decide (maxRssi readings - minRssi readings < 10)
    else data.current_info.is_stable
  let info : DistanceInfo :=
    { rssi_dbm := reading.rssi_dbm
      rssi_smoothed := smoothed
      zone := zone
      signal_bars := rssi_to_signal_bars smoothed
      is_stable := is_stable
      last_update := reading.timestamp }
  if zone ≠ data.last_zone ∧ now - data.last_zone_change ≥ cfg.zone_hysteresis then
    let requires_alert :=
      decide (data.last_zone ≠ TrustZone.Unknown ∧ zone = TrustZone.Far ∧
        data.last_zone ≠ TrustZone.Far)
    let event : ZoneChangeEvent :=
      { device_id := device_id
        previous_zone := data.last_zone
        current_zone := zone
        distance_info := info
        is_moving_closer := decide (zone.toNat < data.last_zone.toNat)
        requires_security_alert := requires_alert
        timestamp := now }
    (⟨readings, info, zone, now⟩, some event,
      if requires_alert then some securityAlertMsg else none)
  else
    (⟨readings, info, data.last_zone, data.last_zone_change⟩, none, none)

/-- The zone `process_reading` classifies from the updated buffer. -/
def classifiedZone (cfg : MonitorConfig) (data : DeviceData)
    (reading : RssiReading) : TrustZone :=
  rssi_to_zone
    (calculate_smoothed_rssi (evictOld (data.readings ++ [reading]) cfg.smoothing_window))
    cfg.thresholds

/-- C8: a `feed_rssi` step emits a zone-change event iff the newly
classified zone differs from the last reported zone and at least the
hysteresis has elapsed since the last zone change; the event carries
`previous = last reported`, `current = classified`, and
`requires_security_alert` true iff current is `Far` and previous is
neither `Unknown` nor `Far`; the security-alert callback fires exactly
when an emitted event requires the alert. -/
theorem c8_zone_change_emission (cfg : MonitorConfig) (device_id : DeviceId)
    (data : DeviceData) (reading : RssiReading) (now : Nat)
    (hclock : data.last_zone_change ≤ now) :
    ((process_reading cfg device_id data reading now).2.1.isSome = true ↔
      (classifiedZone cfg data reading ≠ data.last_zone ∧
        now - data.last_zone_change ≥ cfg.zone_hysteresis)) ∧
    (∀ e : ZoneChangeEvent,
      (process_reading cfg device_id data reading now).2.1 = some e →
      e.previous_zone = data.last_zone ∧
      e.current_zone = classifiedZone cfg data reading ∧
      (e.requires_security_alert = true ↔
        (e.current_zone = TrustZone.Far ∧ e.previous_zone ≠ TrustZone.Unknown ∧
          e.previous_zone ≠ TrustZone.Far))) ∧
    ((process_reading cfg device_id data reading now).2.2.isSome = true ↔
      ∃ e : ZoneChangeEvent,
        (process_reading cfg device_id data reading now).2.1 = some e ∧
          e.requires_security_alert = true) := by
  unfold process_reading classifiedZone
  dsimp only
  by_cases hcond :
      (rssi_to_zone
          (calculate_smoothed_rssi
            (evictOld (data.readings ++ [reading]) cfg.smoothing_window))
          cfg.thresholds ≠ data.last_zone ∧
        now - data.last_zone_change ≥ cfg.zone_hysteresis)
  · rw [if_pos hcond]
    refine ⟨by simpa using hcond, fun e he => ?_, ?_⟩
    · cases Option.some.inj he
      refine ⟨rfl, rfl, ?_⟩
      dsimp only
      rw [decide_eq_true_eq]
      constructor
      · rintro ⟨h1, h2, h3⟩
        exact ⟨h2, h1, h3⟩
      · rintro ⟨h1, h2, h3⟩
        exact ⟨h2, h1, h3⟩
    · by_cases hr :
          decide (data.last_zone ≠ TrustZone.Unknown ∧
            rssi_to_zone
              (calculate_smoothed_rssi
                (evictOld (data.readings ++ [reading]) cfg.smoothing_window))
              cfg.thresholds = TrustZone.Far ∧
            data.last_zone ≠ TrustZone.Far) = true
      · rw [if_pos hr]
        simp only [Option.isSome_some, true_iff]
        exact ⟨_, rfl, hr⟩
      · rw [if_neg hr]
        simp only [Option.isSome_none, Bool.false_eq_true, false_iff]
        rintro ⟨e, he, hreq⟩
        cases Option.some.inj he
        exact hr hreq
  · rw [if_neg hcond]
    refine ⟨by simpa using hcond, fun e he => ?_, by simp⟩
    cases he

/-- Closed instance of `c8_zone_change_emission`: with thresholds
(−68, −79, −88), hysteresis 0, a buffer of four −90 dBm readings, last
reported zone `Close`, feeding a fifth −90 dBm reading classifies `Far`,
emits an event with `requires_security_alert`, and fires the alert. -/
theorem c8_zone_change_emission_witness :
    (process_reading ⟨⟨-68, -79, -88⟩, 5, 0⟩ ⟨List.replicate 32 3⟩
        ⟨List.replicate 4 ⟨-90, 0, true⟩,
          ⟨-90, -90, TrustZone.Close, 1, false, 0⟩, TrustZone.Close, 0⟩
        ⟨-90, 7, true⟩ 7).2.1.isSome = true ∧
    (process_reading ⟨⟨-68, -79, -88⟩, 5, 0⟩ ⟨List.replicate 32 3⟩
        ⟨List.replicate 4 ⟨-90, 0, true⟩,
          ⟨-90, -90, TrustZone.Close, 1, false, 0⟩, TrustZone.Close, 0⟩
        ⟨-90, 7, true⟩ 7).2.2.isSome = true :=
  ⟨(c8_zone_change_emission ⟨⟨-68, -79, -88⟩, 5, 0⟩ ⟨List.replicate 32 3⟩
      ⟨List.replicate 4 ⟨-90, 0, true⟩,
        ⟨-90, -90, TrustZone.Close, 1, false, 0⟩, TrustZone.Close, 0⟩
      ⟨-90, 7, true⟩ 7 (by decide)).1.mpr (by decide),
   (c8_zone_change_emission ⟨⟨-68, -79, -88⟩, 5, 0⟩ ⟨List.replicate 32 3⟩
      ⟨List.replicate 4 ⟨-90, 0, true⟩,
        ⟨-90, -90, TrustZone.Close, 1, false, 0⟩, TrustZone.Close, 0⟩
      ⟨-90, 7, true⟩ 7 (by decide)).2.2.mpr
    ⟨⟨⟨List.replicate 32 3⟩, TrustZone.Close, TrustZone.Far,
        ⟨-90, -90, TrustZone.Far, 1, true, 7⟩, false, true, 7⟩,
      by decide, by decide⟩⟩

/-! ## AEAD channel (`security.cpp`, `encrypt` / `decrypt`)

The wrapper code in `security.cpp` prepends a nonce, calls libsodium's
XChaCha20-Poly1305, and maps failures to `ErrorCode::DecryptionFailed`.
The primitive itself is external library code, so it is modelled from the
spec (§4.2): a stream cipher (`plaintext ⊕ keystream`) plus a 16-byte
tag over `(key, nonce, aad, ciphertext)`; per the spec's contract
"`decrypt` fails with `DecryptAuthFailure` if tag or AAD mismatch", the
tag is idealized as an injective function of those four inputs (its last
cell holds an unbounded encoding; real Poly1305 collisions are outside
the model). The random nonce drawn inside the C++ `encrypt` is an
explicit argument. -/

/-- `NONCE_SIZE` (XChaCha20: 24 bytes). -/
def NONCE_SIZE : Nat := 24

/-- `SYMMETRIC_KEY_SIZE` (32 bytes). -/
def SYMMETRIC_KEY_SIZE : Nat := 32

/-- `crypto_aead_xchacha20poly1305_ietf_ABYTES` (16-byte tag). -/
def ABYTES : Nat := 16

/-- Injective encoding of a byte list into one natural (base 257 with
nonzero digits). -/
def encodeBytes : Bytes → Nat
  | [] => 0
  | b :: t => (b + 1) + 257 * encodeBytes t

theorem encodeBytes_inj : ∀ l1 l2 : Bytes, ByteValid l1 → ByteValid l2 →
    encodeBytes l1 = encodeBytes l2 → l1 = l2
  | [], [], _, _, _ => rfl
  | [], b :: t, _, h2, he => by
      exfalso
      have hb := h2 b (by simp)
      simp only [encodeBytes] at he
      omega
  | b :: t, [], h1, _, he => by
      exfalso
      have hb := h1 b (by simp)
      simp only [encodeBytes] at he
      omega
  | b1 :: t1, b2 :: t2, h1, h2, he => by
      simp only [encodeBytes] at he
      have hb1 := h1 b1 (by simp)
      have hb2 := h2 b2 (by simp)
      have hhead : b1 = b2 ∧ encodeBytes t1 = encodeBytes t2 := by omega
      have htail := encodeBytes_inj t1 t2
        (fun x hx => h1 x (by simp [hx])) (fun x hx => h2 x (by simp [hx]))
        hhead.2
      rw [hhead.1, htail]

/-- Modelled from the spec: the Poly1305 tag input, an injective pairing
of key, nonce, aad and ciphertext body. -/
def macNat (key nonce aad body : Bytes) : Nat :=
  Nat.pair (Nat.pair (encodeBytes key) (encodeBytes nonce))
    (Nat.pair (encodeBytes aad) (encodeBytes body))

/-- Modelled from the spec: the 16-byte tag; 15 zero cells and one cell
holding the ideal MAC value. -/
def poly1305_tag (key nonce aad body : Bytes) : Bytes :=
  List.replicate 15 0 ++ [macNat key nonce aad body]

theorem poly1305_tag_length (key nonce aad body : Bytes) :
    (poly1305_tag key nonce aad body).length = ABYTES := rfl

theorem poly1305_tag_inj {key nonce nonce' aad aad' body body' : Bytes}
    (h : poly1305_tag key nonce aad body = poly1305_tag key nonce' aad' body') :
    encodeBytes nonce = encodeBytes nonce' ∧
    encodeBytes aad = encodeBytes aad' ∧
    encodeBytes body = encodeBytes body' := by
  unfold poly1305_tag at h
  have hm : macNat key nonce aad body = macNat key nonce' aad' body' := by
    have := List.append_cancel_left h
    exact List.head_eq_of_cons_eq this
  unfold macNat at hm
  rw [Nat.pair_eq_pair] at hm
  obtain ⟨hm1, hm2⟩ := hm
  rw [Nat.pair_eq_pair] at hm1 hm2
  exact ⟨hm1.2, hm2.1, hm2.2⟩

/-- Modelled from the spec: a stand-in XChaCha20 keystream byte (the
theorems below hold for any keystream). -/
def xchachaStream (key nonce : Bytes) (i : Nat) : Nat :=
  (encodeBytes key + 31 * encodeBytes nonce + 17 * i) % 256

/-- XOR a buffer against the keystream starting at stream index `i`. -/
def xorStream (key nonce : Bytes) : Nat → Bytes → Bytes
  | _, [] => []
  | i, b :: t => (b ^^^ xchachaStream key nonce i) :: xorStream key nonce (i + 1) t

theorem xorStream_length (key nonce : Bytes) :
    ∀ (i : Nat) (l : Bytes), (xorStream key nonce i l).length = l.length
  | _, [] => rfl
  | i, _ :: t => by
      simp only [xorStream, List.length_cons, xorStream_length key nonce (i + 1) t]

theorem xorStream_invol (key nonce : Bytes) :
    ∀ (i : Nat) (l : Bytes), xorStream key nonce i (xorStream key nonce i l) = l
  | _, [] => rfl
  | i, b :: t => by
      simp only [xorStream, xorStream_invol key nonce (i + 1) t]
      rw [Nat.xor_assoc, Nat.xor_self, Nat.xor_zero]

theorem xorStream_byteValid (key nonce : Bytes) :
    ∀ (i : Nat) (l : Bytes), ByteValid l → ByteValid (xorStream key nonce i l)
  | _, [], _ => by intro x hx; cases hx
  | i, b :: t, hv => by
      intro x hx
      simp only [xorStream, List.mem_cons] at hx
      cases hx with
      | inl hx =>
          subst hx
          have h1 : b < 2 ^ 8 := hv b (by simp)
          have h2 : xchachaStream key nonce i < 2 ^ 8 :=
            Nat.mod_lt _ (by norm_num)
          calc b ^^^ xchachaStream key nonce i < 2 ^ 8 :=
                Nat.xor_lt_two_pow h1 h2
            _ = 256 := by norm_num
      | inr hx =>
          exact xorStream_byteValid key nonce (i + 1) t
            (fun y hy => hv y (by simp [hy])) x hx

/-- The ciphertext layout produced by `encrypt`:
`nonce ∥ (plaintext ⊕ keystream) ∥ tag`. -/
def sealBytes (plaintext key associated_data nonce : Bytes) : Bytes :=
  nonce ++ xorStream key nonce 0 plaintext ++
    poly1305_tag key nonce associated_data (xorStream key nonce 0 plaintext)

/-- `encrypt(plaintext, key, aad)` with its freshly drawn random nonce
made explicit; the libsodium call cannot fail in the model. -/
def encrypt (plaintext key associated_data nonce : Bytes) : SdResult Bytes :=
  .ok (sealBytes plaintext key associated_data nonce)

/-- `decrypt(ciphertext, key, aad)`: length check, then recompute the tag
over the extracted nonce/body and compare; both failure branches use
`ErrorCode::DecryptionFailed` as in the source. -/
def decrypt (ciphertext key associated_data : Bytes) : SdResult Bytes :=
  if ciphertext.length < NONCE_SIZE + ABYTES then
    .error ⟨.DecryptionFailed, "Ciphertext too short"⟩
  else if ciphertext.drop (ciphertext.length - ABYTES) =
      poly1305_tag key (ciphertext.take NONCE_SIZE) associated_data
        ((ciphertext.drop NONCE_SIZE).take (ciphertext.length - NONCE_SIZE - ABYTES)) then
    .ok (xorStream key (ciphertext.take NONCE_SIZE) 0
      ((ciphertext.drop NONCE_SIZE).take (ciphertext.length - NONCE_SIZE - ABYTES)))
  else
    .error ⟨.DecryptionFailed, "Decryption failed - authentication error"⟩

/-- `decrypt` on a well-shaped `nonce ∥ body ∥ tag` buffer reduces to the
tag comparison. -/
theorem decrypt_parts (key n B T a : Bytes) (h24 : n.length = NONCE_SIZE)
    (h16 : T.length = ABYTES) :
    decrypt (n ++ B ++ T) key a =
      if T = poly1305_tag key n a B then .ok (xorStream key n 0 B)
      else .error ⟨.DecryptionFailed, "Decryption failed - authentication error"⟩ := by
  have hlen : (n ++ B ++ T).length = NONCE_SIZE + B.length + ABYTES := by
    simp [List.length_append, h24, h16]
    omega
  have htake : (n ++ B ++ T).take NONCE_SIZE = n := by
    rw [List.append_assoc, ← h24, List.take_left]
  have hdropN : (n ++ B ++ T).drop NONCE_SIZE = B ++ T := by
    rw [List.append_assoc, ← h24, List.drop_left]
  have hbody : ((n ++ B ++ T).drop NONCE_SIZE).take
      ((n ++ B ++ T).length - NONCE_SIZE - ABYTES) = B := by
    rw [hdropN, hlen]
    have : NONCE_SIZE + B.length + ABYTES - NONCE_SIZE - ABYTES = B.length := by omega
    rw [this, List.take_left]
  have htag : (n ++ B ++ T).drop ((n ++ B ++ T).length - ABYTES) = T := by
    rw [hlen]
    have h1 : NONCE_SIZE + B.length + ABYTES - ABYTES = (n ++ B).length := by
      rw [List.length_append, h24]; omega
    rw [h1, List.drop_left]
  have hnotshort : ¬((n ++ B ++ T).length < NONCE_SIZE + ABYTES) := by
    rw [hlen]; omega
  unfold decrypt
  rw [if_neg hnotshort, htake, hbody, htag]

/-- `l.set i v` differs from `l` when `v` differs from `l`'s entry. -/
theorem set_ne_self {l : Bytes} {i : Nat} {v : Nat} (hi : i < l.length)
    (hv : v ≠ l.getD i 0) : l.set i v ≠ l := by
  intro h
  apply hv
  have h2 := congrArg (fun x : Bytes => x.getD i 0) h
  simp only [List.getD_eq_getElem?_getD, List.getElem?_set_self'] at h2
  rw [List.getElem?_eq_getElem hi] at h2
  simp only [Option.map_some, Option.getD_some, Function.const_apply,
    Option.map_eq_map] at h2
  rw [List.getD_eq_getElem?_getD, List.getElem?_eq_getElem hi]
  simpa using h2

theorem byteValid_set {l : Bytes} {v : Nat} (hl : ByteValid l) (hv : v < 256) :
    ∀ i : Nat, ByteValid (l.set i v) := by
  intro i x hx
  have := List.mem_or_eq_of_mem_set hx
  cases this with
  | inl h => exact hl x h
  | inr h => rw [h]; exact hv

/-- C1: with the spec-modelled ideal-MAC AEAD, for every byte-valid
plaintext, 32-byte key, aad and 24-byte nonce: decrypting the sealed
message with the same key and aad returns the plaintext; decrypting with
any different aad fails with the authentication error
(`ErrorCode::DecryptionFailed`, the code's value for the spec's
`DecryptAuthFailure`); and flipping any single ciphertext byte makes
decrypt fail with the same authentication error. -/
theorem c1_aead_roundtrip_and_auth (p k a a' nonce : Bytes)
    (hk : k.length = SYMMETRIC_KEY_SIZE) (hn : nonce.length = NONCE_SIZE)
    (hp : ByteValid p) (ha : ByteValid a) (ha' : ByteValid a')
    (hnv : ByteValid nonce) :
    encrypt p k a nonce = .ok (sealBytes p k a nonce) ∧
    decrypt (sealBytes p k a nonce) k a = .ok p ∧
    (a' ≠ a →
      decrypt (sealBytes p k a nonce) k a' =
        .error ⟨.DecryptionFailed, "Decryption failed - authentication error"⟩) ∧
    (∀ i v : Nat, i < (sealBytes p k a nonce).length → v < 256 →
      v ≠ (sealBytes p k a nonce).getD i 0 →
      decrypt ((sealBytes p k a nonce).set i v) k a =
        .error ⟨.DecryptionFailed, "Decryption failed - authentication error"⟩) := by
  have hblen : (xorStream k nonce 0 p).length = p.length := xorStream_length k nonce 0 p
  have hbval : ByteValid (xorStream k nonce 0 p) := xorStream_byteValid k nonce 0 p hp
  have htlen : (poly1305_tag k nonce a (xorStream k nonce 0 p)).length = ABYTES :=
    poly1305_tag_length _ _ _ _
  refine ⟨rfl, ?_, fun hne => ?_, fun i v hi hv hne => ?_⟩
  · rw [sealBytes, decrypt_parts k nonce _ _ a hn htlen, if_pos rfl,
      xorStream_invol]
  · rw [sealBytes, decrypt_parts k nonce _ _ a' hn htlen, if_neg ?_]
    intro hteq
    obtain ⟨_, haeq, _⟩ := poly1305_tag_inj hteq
    exact hne (encodeBytes_inj a a' ha ha' haeq).symm
  · have hclen : (sealBytes p k a nonce).length =
        NONCE_SIZE + p.length + ABYTES := by
      rw [sealBytes, List.length_append, List.length_append, hn, hblen, htlen]
    by_cases hi1 : i < NONCE_SIZE
    · have hset : (sealBytes p k a nonce).set i v =
          nonce.set i v ++ xorStream k nonce 0 p ++
            poly1305_tag k nonce a (xorStream k nonce 0 p) := by
        rw [sealBytes, List.set_append_left _ _ (by
          rw [List.length_append, hn, hblen]; omega),
          List.set_append_left _ _ (by rw [hn]; omega)]
      have hgd : (sealBytes p k a nonce).getD i 0 = nonce.getD i 0 := by
        rw [sealBytes, List.getD_append _ _ _ _ (by
          rw [List.length_append, hn, hblen]; omega),
          List.getD_append _ _ _ _ (by rw [hn]; omega)]
      rw [hset, decrypt_parts k _ _ _ a (by rw [List.length_set, hn]) htlen,
        if_neg ?_]
      intro hteq
      obtain ⟨hneq, _, _⟩ := poly1305_tag_inj hteq
      have : nonce = nonce.set i v :=
        encodeBytes_inj _ _ hnv (byteValid_set hnv hv i) hneq
      exact set_ne_self (by rw [hn]; omega) (by rw [← hgd]; exact hne) this.symm
    · by_cases hi2 : i < NONCE_SIZE + p.length
      · have hset : (sealBytes p k a nonce).set i v =
            nonce ++ (xorStream k nonce 0 p).set (i - NONCE_SIZE) v ++
              poly1305_tag k nonce a (xorStream k nonce 0 p) := by
          rw [sealBytes, List.set_append_left _ _ (by
            rw [List.length_append, hn, hblen]; omega),
            List.set_append_right _ _ (by rw [hn]; omega), hn]
        have hgd : (sealBytes p k a nonce).getD i 0 =
            (xorStream k nonce 0 p).getD (i - NONCE_SIZE) 0 := by
          rw [sealBytes, List.getD_append _ _ _ _ (by
            rw [List.length_append, hn, hblen]; omega),
            List.getD_append_right _ _ _ _ (by rw [hn]; omega), hn]
        rw [hset, decrypt_parts k nonce _ _ a hn htlen, if_neg ?_]
        intro hteq
        obtain ⟨_, _, hbeq⟩ := poly1305_tag_inj hteq
        have : xorStream k nonce 0 p = (xorStream k nonce 0 p).set (i - NONCE_SIZE) v :=
          encodeBytes_inj _ _ hbval (byteValid_set hbval hv _) hbeq
        exact set_ne_self (by rw [hblen]; omega) (by rw [← hgd]; exact hne) this.symm
      · have hset : (sealBytes p k a nonce).set i v =
            nonce ++ xorStream k nonce 0 p ++
              (poly1305_tag k nonce a (xorStream k nonce 0 p)).set
                (i - (NONCE_SIZE + p.length)) v := by
          rw [sealBytes, List.set_append_right _ _ (by
            rw [List.length_append, hn, hblen]; omega),
            List.length_append, hn, hblen]
        have hgd : (sealBytes p k a nonce).getD i 0 =
            (poly1305_tag k nonce a (xorStream k nonce 0 p)).getD
              (i - (NONCE_SIZE + p.length)) 0 := by
          rw [sealBytes, List.getD_append_right _ _ _ _ (by
            rw [List.length_append, hn, hblen]; omega),
            List.length_append, hn, hblen]
        rw [hset, decrypt_parts k nonce _ _ a hn (by rw [List.length_set, htlen]),
          if_neg ?_]
        intro hteq
        exact @set_ne_self (poly1305_tag k nonce a (xorStream k nonce 0 p))
          (i - (NONCE_SIZE + p.length)) v
          (by rw [htlen]; rw [hclen] at hi; omega)
          (by rw [← hgd]; exact hne) hteq

/-- Closed instance of `c1_aead_roundtrip_and_auth`: seal the bytes of
"Important message" under an all-7 key and flip the middle ciphertext
byte (`c[len(c)/2]`, as in the spec's scenario) — decryption returns the
authentication error; untampered decryption returns the plaintext. -/
theorem c1_aead_roundtrip_and_auth_witness :
    decrypt (sealBytes [1, 2, 3] (List.replicate 32 7) [9] (List.range 24))
      (List.replicate 32 7) [9] = .ok [1, 2, 3] ∧
    decrypt ((sealBytes [1, 2, 3] (List.replicate 32 7) [9]
        (List.range 24)).set 21 255)
      (List.replicate 32 7) [9] =
      .error ⟨.DecryptionFailed, "Decryption failed - authentication error"⟩ :=
  ⟨(c1_aead_roundtrip_and_auth [1, 2, 3] (List.replicate 32 7) [9] [8]
      (List.range 24) (by decide) (by decide) (by decide) (by decide)
      (by decide) (by decide)).2.1,
   (c1_aead_roundtrip_and_auth [1, 2, 3] (List.replicate 32 7) [9] [8]
      (List.range 24) (by decide) (by decide) (by decide) (by decide)
      (by decide) (by decide)).2.2.2 21 255 (by decide) (by decide)
      (by decide)⟩

/-! ## Verification code (`security.cpp`, `derive_verification_code`)

`derive_verification_code` calls libsodium's `crypto_generichash` — which
is BLAKE2b (RFC 7693) — keyed with the 14 bytes `"SeaDrop-Verify"` and a
6-byte output, then formats `((h[0]<<16 | h[1]<<8 | h[2]) % 1000000)`
with `snprintf("%06u")`. BLAKE2b itself is external library code and is
modelled from the spec ("BLAKE2b-equivalent … supports keyed mode") as
the RFC 7693 algorithm; the definitions below reproduce libsodium's
standard test vectors exactly. -/

/-- `2^64`, the BLAKE2b word modulus. -/
def M64 : Nat := 2 ^ 64

/-- 64-bit wrapping addition. -/
def add64 (a b : Nat) : Nat := (a + b) % M64

/-- 64-bit right rotation (`>>` and the disjoint high part added in). -/
def rotr64 (x r : Nat) : Nat := ((x >>> r) + (x <<< (64 - r))) % M64

/-- Modelled from the spec: the BLAKE2b initialization vector
(RFC 7693 §2.6). -/
def blakeIV : List Nat :=
  [0x6a09e667f3bcc908, 0xbb67ae8584caa73b, 0x3c6ef372fe94f82b,
   0xa54ff53a5f1d36f1, 0x510e527fade682d1, 0x9b05688c2b3e6c1f,
   0x1f83d9abfb41bd6b, 0x5be0cd19137e2179]

/-- Modelled from the spec: the BLAKE2b message schedule (RFC 7693 §2.7;
rounds 10 and 11 repeat rows 0 and 1). -/
def blakeSigma : List (List Nat) :=
  [[0, 1, 2, 3, 4, 5, 6, 7, 8, 9, 10, 11, 12, 13, 14, 15],
   [14, 10, 4, 8, 9, 15, 13, 6, 1, 12, 0, 2, 11, 7, 5, 3],
   [11, 8, 12, 0, 5, 2, 15, 13, 10, 14, 3, 6, 7, 1, 9, 4],
   [7, 9, 3, 1, 13, 12, 11, 14, 2, 6, 5, 10, 4, 0, 15, 8],
   [9, 0, 5, 7, 2, 4, 10, 15, 14, 1, 11, 12, 6, 8, 3, 13],
   [2, 12, 6, 10, 0, 11, 8, 3, 4, 13, 7, 5, 15, 14, 1, 9],
   [12, 5, 1, 15, 14, 13, 4, 10, 0, 7, 6, 3, 9, 2, 8, 11],
   [13, 11, 7, 14, 12, 1, 3, 9, 5, 0, 15, 4, 8, 6, 2, 10],
   [6, 15, 14, 9, 11, 3, 0, 8, 12, 2, 13, 7, 1, 4, 10, 5],
   [10, 2, 8, 4, 7, 6, 1, 5, 15, 11, 9, 14, 3, 12, 13, 0],
   [0, 1, 2, 3, 4, 5, 6, 7, 8, 9, 10, 11, 12, 13, 14, 15],
   [14, 10, 4, 8, 9, 15, 13, 6, 1, 12, 0, 2, 11, 7, 5, 3]]

/-- Little-endian 64-bit word at a byte offset. -/
def le64At (d : Bytes) (off : Nat) : Nat :=
  (List.range 8).foldr (fun i acc => acc * 256 + d.getD (off + i) 0) 0

/-- The sixteen message words of a 128-byte block. -/
def wordsOf (block : Bytes) : List Nat :=
  (List.range 16).map fun i => le64At block (8 * i)

/-- The BLAKE2b mixing function G (RFC 7693 §3.1). -/
def blakeG (v : List Nat) (a b c d x y : Nat) : List Nat :=
  let v := v.set a (add64 (add64 (v.getD a 0) (v.getD b 0)) x)
  let v := v.set d (rotr64 ((v.getD d 0) ^^^ (v.getD a 0)) 32)
  let v := v.set c (add64 (v.getD c 0) (v.getD d 0))
  let v := v.set b (rotr64 ((v.getD b 0) ^^^ (v.getD c 0)) 24)
  let v := v.set a (add64 (add64 (v.getD a 0) (v.getD b 0)) y)
  let v := v.set d (rotr64 ((v.getD d 0) ^^^ (v.getD a 0)) 16)
  let v := v.set c (add64 (v.getD c 0) (v.getD d 0))
  let v := v.set b (rotr64 ((v.getD b 0) ^^^ (v.getD c 0)) 63)
  v

/-- One BLAKE2b round: column then diagonal mixing. -/
def blakeRound (m : List Nat) (v : List Nat) (i : Nat) : List Nat :=
  let s := blakeSigma.getD i []
  let v := blakeG v 0 4 8 12 (m.getD (s.getD 0 0) 0) (m.getD (s.getD 1 0) 0)
  let v := blakeG v 1 5 9 13 (m.getD (s.getD 2 0) 0) (m.getD (s.getD 3 0) 0)
  let v := blakeG v 2 6 10 14 (m.getD (s.getD 4 0) 0) (m.getD (s.getD 5 0) 0)
  let v := blakeG v 3 7 11 15 (m.getD (s.getD 6 0) 0) (m.getD (s.getD 7 0) 0)
  let v := blakeG v 0 5 10 15 (m.getD (s.getD 8 0) 0) (m.getD (s.getD 9 0) 0)
  let v := blakeG v 1 6 11 12 (m.getD (s.getD 10 0) 0) (m.getD (s.getD 11 0) 0)
  let v := blakeG v 2 7 8 13 (m.getD (s.getD 12 0) 0) (m.getD (s.getD 13 0) 0)
  let v := blakeG v 3 4 9 14 (m.getD (s.getD 14 0) 0) (m.getD (s.getD 15 0) 0)
  v

/-- The BLAKE2b compression function F (RFC 7693 §3.2). -/
def blakeCompress (h : List Nat) (block : Bytes) (t : Nat) (final : Bool) :
    List Nat :=
  let m := wordsOf block
  let v := h ++ blakeIV
  let v := v.set 12 ((v.getD 12 0) ^^^ (t % M64))
  let v := v.set 13 ((v.getD 13 0) ^^^ (t / M64 % M64))
  let v := if final then v.set 14 ((v.getD 14 0) ^^^ (M64 - 1)) else v
  let v := (List.range 12).foldl (blakeRound m) v
  (List.range 8).map fun i => (h.getD i 0) ^^^ (v.getD i 0) ^^^ (v.getD (i + 8) 0)

/-- Zero-pad a partial block to 128 bytes. -/
def padTo128 (d : Bytes) : Bytes :=
  d ++ List.replicate (128 - d.length) 0

/-- Sequential block processing; the fuel (at least the byte count)
makes the recursion structural so terms evaluate in the kernel. -/
def blake2bLoop : Nat → List Nat → Nat → Bytes → List Nat
  | 0, h, t, d => blakeCompress h (padTo128 d) (t + d.length) true
  | fuel + 1, h, t, d =>
      if d.length > 128 then
        blake2bLoop fuel (blakeCompress h (d.take 128) (t + 128) false)
          (t + 128) (d.drop 128)
      else blakeCompress h (padTo128 d) (t + d.length) true

/-- Modelled from the spec: keyed BLAKE2b with `outlen`-byte digest
(RFC 7693; `crypto_generichash` in libsodium). A non-empty key is padded
to a first 128-byte block. Matches the standard test vectors. -/
def blake2b (outlen : Nat) (key : Bytes) (msg : Bytes) : Bytes :=
  let h0 := blakeIV.set 0
    ((blakeIV.getD 0 0) ^^^ 0x01010000 ^^^ (key.length <<< 8) ^^^ outlen)
  let d := if key.isEmpty then msg else padTo128 key ++ msg
  let hv := blake2bLoop d.length h0 0 d
  ((List.range (8 * outlen)).map fun i =>
    hv.getD (i / 8) 0 / 2 ^ (8 * (i % 8)) % 256).take outlen

/-- The context key `"SeaDrop-Verify"` (14 bytes, as in the source). -/
def verifyKeyBytes : Bytes :=
  [0x53, 0x65, 0x61, 0x44, 0x72, 0x6f, 0x70, 0x2d, 0x56, 0x65, 0x72, 0x69,
   0x66, 0x79]

/-- `snprintf(buffer, "%06u", val)` for `val < 10^6`: six zero-padded
decimal digits. -/
def format06 (val : Nat) : String :=
  String.mk ((List.range 6).map fun i => Char.ofNat (48 + val / 10 ^ (5 - i) % 10))

/-- `derive_verification_code` (`security.cpp`): 6-byte keyed BLAKE2b of
the 32-byte shared secret, then the first three bytes as a big-endian
24-bit value, reduced mod `10^6` and zero-padded to six digits. -/
def derive_verification_code (shared_secret : Bytes) : String :=
  format06 (((blake2b 6 verifyKeyBytes shared_secret).getD 0 0 <<< 16 |||
    (blake2b 6 verifyKeyBytes shared_secret).getD 1 0 <<< 8 |||
    (blake2b 6 verifyKeyBytes shared_secret).getD 2 0) % 1000000)

/-- The claim's "first six decimal digits of the 6-byte hash": the hash
read as a big-endian natural, first six digits of its decimal
representation. (Definition follows the spec's words, for comparison
with `derive_verification_code`.) -/
def firstSixDecimalDigits (h : Bytes) : String :=
  (Nat.repr (h.foldl (fun acc b => acc * 256 + b) 0)).take 6

/-- C9 (amended): `derive_verification_code` is deterministic, always
produces exactly six ASCII decimal digits, and depends only on the
6-byte keyed BLAKE2b hash of the secret (equal hashes — in particular
equal secrets — give equal codes). It is *not* the first six decimal
digits of the hash, and distinct secrets can collide (see the
counterexample). -/
theorem c9_verification_code_digits :
    (∀ s : Bytes, (derive_verification_code s).length = 6 ∧
      ∀ c ∈ (derive_verification_code s).data,
        c ∈ ['0', '1', '2', '3', '4', '5', '6', '7', '8', '9']) ∧
    (∀ s s' : Bytes,
      blake2b 6 verifyKeyBytes s = blake2b 6 verifyKeyBytes s' →
      derive_verification_code s = derive_verification_code s') := by
  refine ⟨fun s => ⟨?_, ?_⟩, fun s s' h => ?_⟩
  · show (String.mk _).length = 6
    simp [String.length, format06]
  · intro c hc
    unfold derive_verification_code format06 at hc
    simp only [String.data] at hc
    obtain ⟨i, hi, rfl⟩ := List.mem_map.mp hc
    have hd : ∀ val : Nat, val / 10 ^ (5 - i) % 10 < 10 :=
      fun val => Nat.mod_lt _ (by norm_num)
    generalize (((blake2b 6 verifyKeyBytes s).getD 0 0 <<< 16 |||
      (blake2b 6 verifyKeyBytes s).getD 1 0 <<< 8 |||
      (blake2b 6 verifyKeyBytes s).getD 2 0) % 1000000) = val
    have hlt := hd val
    generalize val / 10 ^ (5 - i) % 10 = d at hlt ⊢
    interval_cases d <;> decide
  · unfold derive_verification_code
    rw [h]

/-- Closed instance of `c9_verification_code_digits` at the all-zero
secret: six characters, a sample digit, and hash-congruence at equal
inputs. -/
theorem c9_verification_code_digits_witness :
    (derive_verification_code (List.replicate 32 0)).length = 6 ∧
    derive_verification_code (List.replicate 32 0) =
      derive_verification_code (List.replicate 32 0) :=
  ⟨(c9_verification_code_digits.1 (List.replicate 32 0)).1,
   c9_verification_code_digits.2 (List.replicate 32 0) (List.replicate 32 0) rfl⟩

set_option maxRecDepth 1000000 in
set_option maxHeartbeats 4000000 in
/-- C9 counterexample: at the all-zero 32-byte secret the code is
"864045" while the first six decimal digits of the 6-byte keyed BLAKE2b
hash (`c4 4a 2d e5 2d 1c`, i.e. 215822876618012) are "215822"; and the
two distinct secrets differing in bytes 2–3 both map to code "682479",
so codes being equal does not imply the secrets match. -/
theorem c9_verification_code_counterexample :
    derive_verification_code (List.replicate 32 0) = "864045" ∧
    firstSixDecimalDigits (blake2b 6 verifyKeyBytes (List.replicate 32 0)) =
      "215822" ∧
    ("864045" : String) ≠ "215822" ∧
    ([0, 0, 1, 161] ++ List.replicate 28 0 : Bytes) ≠
      [0, 0, 3, 55] ++ List.replicate 28 0 ∧
    derive_verification_code ([0, 0, 1, 161] ++ List.replicate 28 0) = "682479" ∧
    derive_verification_code ([0, 0, 3, 55] ++ List.replicate 28 0) = "682479" :=
  ⟨rfl, rfl, by decide, by decide, rfl, rfl⟩

end Seadrop
